import Mathlib

/-!
Verification development for the gesture-driven voxel authoring engine
(`src/voxel-builder`): a shallow embedding of `VoxelGrid.ts`,
`VoxelBuilderRenderer.ts` and `VoxelBuilderController.ts`, followed by
theorems about the occupancy store, the render-buffer synchronizer and the
gesture controller.

Modelling conventions:
* TypeScript numbers that hold exact values (grid indices, counts) are
  `Int` / `Nat`; continuous coordinates, scales and colors are `ℚ`
  (double rounding is immaterial to every property proved here).
* `Set<string>` keyed by `voxelKey(gx,gy,gz) = "gx,gy,gz"` is a
  `List Cell` in insertion order; `voxelKey` is injective on integer
  triples, so the set of keys is in bijection with the set of cells.
* The `Infinity` / `-Infinity` sentinels of `minY` / `maxY` are `none`.
* The `InstancedMesh` instance matrices (translation only) and instance
  colors are slot-indexed total functions; a color is recorded as the
  HSL triple passed to `THREE.Color.setHSL` (the HSL-to-RGB conversion
  is presentation, out of the verified core).
-/

/-- Integer grid coordinates identifying a voxel cell
(`VoxelPosition` in `types.ts`). -/
structure Cell where
  gx : Int
  gy : Int
  gz : Int
deriving DecidableEq

/-- A 3-component vector with exact rational coordinates
(`THREE.Vector3` as used by the voxel builder). -/
structure V3 where
  x : ℚ
  y : ℚ
  z : ℚ
deriving DecidableEq

/-- Componentwise linear interpolation, `THREE.Vector3.lerp`:
`a + (b - a) * t` on each axis. -/
def V3.lerp (a b : V3) (t : ℚ) : V3 :=
  ⟨a.x + (b.x - a.x) * t, a.y + (b.y - a.y) * t, a.z + (b.z - a.z) * t⟩

/-- Squared Euclidean distance.  The source compares
`localPos.distanceTo(lastSpawnWorldPos) >= spawnDistance`; squaring both
sides is equivalent because `spawnDistance` is nonnegative, and keeps the
model inside `ℚ`. -/
def V3.distSq (a b : V3) : ℚ :=
  (a.x - b.x) ^ 2 + (a.y - b.y) ^ 2 + (a.z - b.z) ^ 2

/-- Occupancy store (`VoxelGrid.ts`).  `occupied` is the `Set<string>` of
occupied cell keys in insertion order; `minY` / `maxY` hold the tracked
vertical extent, with `none` standing for the initial
`Infinity` / `-Infinity` sentinels. -/
structure VoxelGrid where
  cellSize : ℚ
  maxCells : Nat
  occupied : List Cell
  minY : Option Int
  maxY : Option Int

/-- A freshly constructed grid: empty set, sentinel extent. -/
def VoxelGrid.mk0 (cellSize : ℚ) (maxCells : Nat) : VoxelGrid :=
  ⟨cellSize, maxCells, [], none, none⟩

/-- One step of the extent update `if (gy < this.minY) this.minY = gy`,
with `none` playing the role of `Infinity`. -/
def minStep (acc : Option Int) (y : Int) : Option Int :=
  match acc with
  | none => some y
  | some m => if y < m then some y else some m

/-- One step of the extent update `if (gy > this.maxY) this.maxY = gy`,
with `none` playing the role of `-Infinity`. -/
def maxStep (acc : Option Int) (y : Int) : Option Int :=
  match acc with
  | none => some y
  | some m => if m < y then some y else some m

/-- The `remove` rescan loop for `minY`: fold `minStep` over the remaining
cells starting from the `Infinity` sentinel. -/
def recomputeMinY (l : List Cell) : Option Int :=
  l.foldl (fun acc c => minStep acc c.gy) none

/-- The `remove` rescan loop for `maxY`. -/
def recomputeMaxY (l : List Cell) : Option Int :=
  l.foldl (fun acc c => maxStep acc c.gy) none

/-- `VoxelGrid.add`: fails (returning the unchanged grid) when the store
is at `maxCells` capacity or the cell is already occupied; otherwise
inserts the cell and updates the vertical extent. -/
def VoxelGrid.add (g : VoxelGrid) (gx gy gz : Int) : Bool × VoxelGrid :=
  if g.maxCells ≤ g.occupied.length then (false, g)
  else if (⟨gx, gy, gz⟩ : Cell) ∈ g.occupied then (false, g)
  else
    (true, { g with
      occupied := g.occupied ++ [⟨gx, gy, gz⟩],
      minY := minStep g.minY gy,
      maxY := maxStep g.maxY gy })

/-- `VoxelGrid.has`: pure membership query. -/
def VoxelGrid.has (g : VoxelGrid) (gx gy gz : Int) : Bool :=
  decide ((⟨gx, gy, gz⟩ : Cell) ∈ g.occupied)

/-- `VoxelGrid.remove`: false if the cell is absent; otherwise deletes it
and fully recomputes `minY` / `maxY` from the remaining cells. -/
def VoxelGrid.remove (g : VoxelGrid) (gx gy gz : Int) : Bool × VoxelGrid :=
  if (⟨gx, gy, gz⟩ : Cell) ∈ g.occupied then
    let occ := g.occupied.erase ⟨gx, gy, gz⟩
    (true, { g with occupied := occ, minY := recomputeMinY occ, maxY := recomputeMaxY occ })
  else (false, g)

/-- `VoxelGrid.count`: number of occupied cells. -/
def VoxelGrid.count (g : VoxelGrid) : Nat :=
  g.occupied.length

/-- `VoxelGrid.getYRange`: `{minY: 0, maxY: 0}` when empty, else the
tracked extent.  In every state reachable from a fresh grid the tracked
fields are `some` whenever the store is nonempty, so the `getD 0`
totalization of the sentinel is never exercised there. -/
def VoxelGrid.getYRange (g : VoxelGrid) : Int × Int :=
  if g.occupied.isEmpty then (0, 0) else (g.minY.getD 0, g.maxY.getD 0)

/-- `VoxelGrid.clear`: empty the store and reset the extent sentinels. -/
def VoxelGrid.clear (g : VoxelGrid) : VoxelGrid :=
  { g with occupied := [], minY := none, maxY := none }

/-- `VoxelGrid.worldToGrid`: snap a continuous local position to the
nearest cell, `Math.round(p.axis / cellSize)` per axis.  Mathlib `round`
on `ℚ` is `⌊x + 1/2⌋`, exactly the rounding of `Math.round`. -/
def VoxelGrid.worldToGrid (g : VoxelGrid) (p : V3) : Cell :=
  ⟨round (p.x / g.cellSize), round (p.y / g.cellSize), round (p.z / g.cellSize)⟩

/-- `VoxelGrid.gridToWorld`: the center of a cell, `index * cellSize`
per axis. -/
def VoxelGrid.gridToWorld (g : VoxelGrid) (c : Cell) : V3 :=
  ⟨(c.gx : ℚ) * g.cellSize, (c.gy : ℚ) * g.cellSize, (c.gz : ℚ) * g.cellSize⟩

/-- Operations of the occupancy-store contract, for reasoning about
arbitrary call sequences. -/
inductive GridOp
  | add (gx gy gz : Int)
  | remove (gx gy gz : Int)
  | clear

/-- Apply one contract operation (the boolean result is dropped). -/
def VoxelGrid.applyOp (g : VoxelGrid) (op : GridOp) : VoxelGrid :=
  match op with
  | .add gx gy gz => (g.add gx gy gz).2
  | .remove gx gy gz => (g.remove gx gy gz).2
  | .clear => g.clear

/-- Run a sequence of contract operations left to right. -/
def VoxelGrid.runOps (g : VoxelGrid) (ops : List GridOp) : VoxelGrid :=
  ops.foldl VoxelGrid.applyOp g

/-! ## List helpers

Own, structurally recursive models of the JavaScript array operations the
renderer uses (`findIndex`, `splice(idx, 1)`, and the in-place mutation of
the first record matching a predicate), so their behavior is transparent. -/

/-- `Array.prototype.findIndex`, with the `-1` failure encoded as `none`. -/
def findIndex {α : Type} (p : α → Bool) : List α → Option Nat
  | [] => none
  | a :: l => if p a then some 0 else (findIndex p l).map (· + 1)

/-- `Array.prototype.splice(i, 1)`: drop the element at position `i`
(no change when `i` is out of range). -/
def removeAt {α : Type} : List α → Nat → List α
  | [], _ => []
  | _ :: l, 0 => l
  | a :: l, i + 1 => a :: removeAt l i

/-- `l[i]`, with a default for the out-of-range case that the callers
below never hit (they index with a result of `findIndex`). -/
def getAt {α : Type} : List α → Nat → α → α
  | [], _, d => d
  | a :: _, 0, _ => a
  | _ :: l, i + 1, d => getAt l i d

/-- Replace the first occurrence of `a` by `b`; specification device for
reasoning about the instance-index rebooking of `removeBox`. -/
def replaceFirst {α : Type} [DecidableEq α] : List α → α → α → List α
  | [], _, _ => []
  | x :: l, a, b => if x = a then b :: l else x :: replaceFirst l a b

/-! ## Color palettes (`types.ts`) -/

/-- A color theme (`VoxelColorPalette`).  HSL components are exact
rationals; `edgeColor` is the hex value. -/
structure Palette where
  name : String
  bottomHSL : ℚ × ℚ × ℚ
  topHSL : ℚ × ℚ × ℚ
  roughness : ℚ
  metalness : ℚ
  edgeColor : Nat
deriving DecidableEq

/-- The curated palette catalog `VOXEL_PALETTES`. -/
def VOXEL_PALETTES : List Palette :=
  [ ⟨"Spectrum", (13/20, 3/4, 11/20), (0, 3/4, 11/20), 2/5, 3/20, 0x000000⟩,
    ⟨"Cyberpunk", (83/100, 9/10, 11/20), (13/25, 9/10, 11/20), 3/10, 1/4, 0x110022⟩,
    ⟨"Monolith", (0, 0, 3/25), (0, 0, 7/20), 1/5, 3/5, 0xffffff⟩,
    ⟨"Gold Standard", (2/25, 17/20, 7/20), (3/25, 19/20, 11/20), 3/20, 17/20, 0x332200⟩ ]

/-! ## Render-buffer synchronizer (`VoxelBuilderRenderer.ts`) -/

/-- Per-box metadata stored alongside each `InstancedMesh` instance
(`BoxRecord` in the source). -/
structure BoxRecord where
  gx : Int
  gy : Int
  gz : Int
  instanceIndex : Nat
deriving DecidableEq

/-- The grid cell a record mirrors. -/
def BoxRecord.cell (b : BoxRecord) : Cell :=
  ⟨b.gx, b.gy, b.gz⟩

/-- The pure state of `VoxelBuilderRenderer` that the verified core
touches: the record list, the live instance count, the slot-indexed
instance matrix translations and instance colors (as HSL triples), the
per-box edge-segment positions (`edgeGroup.children`), the active palette
and material overrides, the erase-mode flag, the ghost preview, and the
turntable rotation targets.  `maxTilt` is `Math.PI / 3` in the source;
it is carried as a field because its (irrational) value plays no role in
any claim.  Scene-graph, camera, lighting and material plumbing are out
of the verified core. -/
structure Renderer where
  boxes : List BoxRecord
  instanceCount : Nat
  mats : Nat → V3
  cols : Nat → ℚ × ℚ × ℚ
  edges : List V3
  palette : Palette
  boxRoughness : ℚ
  boxMetalness : ℚ
  edgeColor : Nat
  eraseMode : Bool
  ghostVisible : Bool
  ghostPos : V3
  targetRotY : ℚ
  targetRotX : ℚ
  maxTilt : ℚ

/-- Renderer state after `initialize()`: empty buffer, first palette,
ghost hidden, zero rotation targets. -/
def Renderer.mk0 (maxTilt : ℚ) : Renderer :=
  { boxes := []
    instanceCount := 0
    mats := fun _ => ⟨0, 0, 0⟩
    cols := fun _ => (0, 0, 0)
    edges := []
    palette := VOXEL_PALETTES.getD 0 ⟨"", (0,0,0), (0,0,0), 0, 0, 0⟩
    boxRoughness := 2/5
    boxMetalness := 3/20
    edgeColor := 0x000000
    eraseMode := false
    ghostVisible := false
    ghostPos := ⟨0, 0, 0⟩
    targetRotY := 0
    targetRotX := 0
    maxTilt := maxTilt }

/-- Linear interpolation of the palette endpoints at parameter `t`:
`bottom + (top - bottom) * t` on each of hue, saturation, lightness. -/
def lerpHSL (pal : Palette) (t : ℚ) : ℚ × ℚ × ℚ :=
  (pal.bottomHSL.1 + (pal.topHSL.1 - pal.bottomHSL.1) * t,
   pal.bottomHSL.2.1 + (pal.topHSL.2.1 - pal.bottomHSL.2.1) * t,
   pal.bottomHSL.2.2 + (pal.topHSL.2.2 - pal.bottomHSL.2.2) * t)

/-- The interpolation parameter of the recolor pass:
`range === 0 ? 0.5 : (gy - minY) / range`. -/
def colorT (minY range gy : Int) : ℚ :=
  if range = 0 then 1/2 else ((gy : ℚ) - (minY : ℚ)) / (range : ℚ)

/-- One iteration of the recolor loop: write the palette color at
parameter `colorT` into the instance slot of record `b`. -/
def colorStep (pal : Palette) (mn range : Int) (f : Nat → ℚ × ℚ × ℚ)
    (b : BoxRecord) : Nat → ℚ × ℚ × ℚ :=
  fun i => if i = b.instanceIndex then lerpHSL pal (colorT mn range b.gy) else f i

/-- `updateAllColors`: for every record, write the palette color at
parameter `colorT` into its instance slot (the loop writes records in
list order). -/
def Renderer.updateAllColors (r : Renderer) (g : VoxelGrid) : Renderer :=
  let mn := (g.getYRange).1
  let range := (g.getYRange).2 - mn
  { r with cols := r.boxes.foldl (colorStep r.palette mn range) r.cols }

/-- `addBox`: append a record at slot `instanceCount`, set its translation
from the cell center (`grid.gridToWorld`), set its color to white
(HSL `(0,0,1)`; immediately overwritten by the recolor pass), bump the
count, add an edge segment, then recolor everything.  The renderer reads
the shared grid, which the controller has already updated, so the grid is
an argument here. -/
def Renderer.addBox (r : Renderer) (g : VoxelGrid) (gx gy gz : Int) : Renderer :=
  let pos := g.gridToWorld ⟨gx, gy, gz⟩
  let idx := r.instanceCount
  let r1 := { r with
    mats := fun i => if i = idx then pos else r.mats i,
    cols := fun i => if i = idx then ((0 : ℚ), (0 : ℚ), (1 : ℚ)) else r.cols i,
    instanceCount := r.instanceCount + 1,
    edges := r.edges ++ [pos],
    boxes := r.boxes ++ [(⟨gx, gy, gz, idx⟩ : BoxRecord)] }
  r1.updateAllColors g

/-- The mutation `lastRecord.instanceIndex = removedRecord.instanceIndex`:
rewrite the instance index of the first record whose index is `lastIdx`.
The source obtains that record with `find(...)!`; when no record matches
(impossible in synchronized states) the non-null assertion would fault,
and the model leaves the list unchanged. -/
def reindexLast (boxes : List BoxRecord) (lastIdx newIdx : Nat) : List BoxRecord :=
  match boxes with
  | [] => []
  | b :: rest =>
    if b.instanceIndex = lastIdx then { b with instanceIndex := newIdx } :: rest
    else b :: reindexLast rest lastIdx newIdx

/-- The record-lookup predicate of `removeBox`
(`b.gx === gx && b.gy === gy && b.gz === gz`). -/
def boxPred (gx gy gz : Int) (b : BoxRecord) : Bool :=
  b.gx == gx && b.gy == gy && b.gz == gz

/-- `removeBox`: locate the record for the cell (`findIndex`); if absent
return false.  Otherwise, when the record is not the last live one, copy
the last slot translation and color into the removed slot and rebook the
last record to that index; then splice the record out, decrement the
count, drop the edge segment at the same position, and recolor. -/
def Renderer.removeBox (r : Renderer) (g : VoxelGrid) (gx gy gz : Int) : Bool × Renderer :=
  match findIndex (boxPred gx gy gz) r.boxes with
  | none => (false, r)
  | some idx =>
    let lastIdx := r.instanceCount - 1
    let removed := getAt r.boxes idx ⟨0, 0, 0, 0⟩
    let r1 :=
      if removed.instanceIndex = lastIdx then r
      else { r with
        mats := fun i => if i = removed.instanceIndex then r.mats lastIdx else r.mats i,
        cols := fun i => if i = removed.instanceIndex then r.cols lastIdx else r.cols i,
        boxes := reindexLast r.boxes lastIdx removed.instanceIndex }
    let r2 := { r1 with
      boxes := removeAt r1.boxes idx,
      instanceCount := r.instanceCount - 1,
      edges := if idx < r1.edges.length then removeAt r1.edges idx else r1.edges }
    (true, r2.updateAllColors g)

/-- `setEraseMode`: record the flag (the ghost-material color switch it
drives is presentation). -/
def Renderer.setEraseMode (r : Renderer) (active : Bool) : Renderer :=
  if r.eraseMode = active then r else { r with eraseMode := active }

/-- `setPalette`: swap the active palette, apply its material overrides,
and recolor every box. -/
def Renderer.setPalette (r : Renderer) (g : VoxelGrid) (pal : Palette) : Renderer :=
  ({ r with palette := pal, boxRoughness := pal.roughness,
            boxMetalness := pal.metalness, edgeColor := pal.edgeColor }).updateAllColors g

/-- `updateGhostPreview`: show or hide the ghost cursor; the position is
copied only when visible. -/
def Renderer.updateGhostPreview (r : Renderer) (pos : V3) (visible : Bool) : Renderer :=
  { r with ghostVisible := visible, ghostPos := if visible then pos else r.ghostPos }

/-- Rotation sensitivity constant (`ROTATION_SENSITIVITY = 4.0`). -/
def ROTATION_SENSITIVITY : ℚ := 4

/-- `applyRotationDelta`: accumulate the yaw target and clamp the tilt
target to `±maxTilt`. -/
def Renderer.applyRotationDelta (r : Renderer) (deltaY deltaX : ℚ) : Renderer :=
  { r with targetRotY := r.targetRotY + deltaY,
           targetRotX := max (-r.maxTilt) (min r.maxTilt (r.targetRotX + deltaX)) }

/-- `resetRotation`: zero both rotation targets. -/
def Renderer.resetRotation (r : Renderer) : Renderer :=
  { r with targetRotY := 0, targetRotX := 0 }

/-- `clearBoxes`: drop all records, zero the live count, drop every edge
segment.  Capacity is untouched. -/
def Renderer.clearBoxes (r : Renderer) : Renderer :=
  { r with boxes := [], instanceCount := 0, edges := [] }

/-! ## Gesture arbiter / controller (`VoxelBuilderController.ts`) -/

/-- Depth sensitivity constant (`DEPTH_SCALE_SENSITIVITY = 12`). -/
def DEPTH_SCALE_SENSITIVITY : ℚ := 12

/-- Scale-smoothing blend factor (`DEPTH_SMOOTHING_FACTOR = 0.3`). -/
def DEPTH_SMOOTHING_FACTOR : ℚ := 3/10

/-- Gesture lifecycle states (`GestureState`). -/
inductive GState
  | started
  | active
  | ended
deriving DecidableEq

/-- Gesture types consumed by the voxel builder (`GestureType`). -/
inductive GType
  | pinch
  | fist
  | pinkyPinch
deriving DecidableEq

/-- Handedness label attached to a gesture event. -/
inductive Handed
  | left
  | right
  | unknown
deriving DecidableEq

/-- The payload fields of a gesture event the controller reads:
handedness, the world-space pinch position, and the normalized screen
position used by the orbit tool. -/
structure GEventData where
  handedness : Handed
  position : V3
  normalizedPosition : ℚ × ℚ
deriving DecidableEq

/-- A typed gesture event with lifecycle state. -/
structure GEvent where
  type : GType
  state : GState
  data : GEventData
deriving DecidableEq

/-- Runtime configuration (`VoxelBuilderConfig`). -/
structure VoxelConfig where
  debug : Bool
  cellSize : ℚ
  maxBoxes : Nat
  spawnDistance : ℚ
  fpsWarningThreshold : Nat
  fpsWarningDurationSec : Nat
deriving DecidableEq

/-- `DEFAULT_VOXEL_BUILDER_CONFIG`. -/
def DEFAULT_VOXEL_BUILDER_CONFIG : VoxelConfig :=
  { debug := false
    cellSize := 9/20
    maxBoxes := 1000
    spawnDistance := 9/20
    fpsWarningThreshold := 30
    fpsWarningDurationSec := 3 }

/-- The controller state the verified core touches: the occupancy grid,
the renderer, the drawing / rotating / erase flags, the last successful
spawn position, the smoothed pinch position, the depth-tracking scales,
the orbit drag anchor, the palette index, and the FPS bookkeeping behind
the performance warning.  The animation-frame plumbing, debug overlay and
tracker handles are out of the verified core (the debug grid string is a
presentation of the snapped cell). -/
structure Controller where
  config : VoxelConfig
  grid : VoxelGrid
  rend : Renderer
  isDrawing : Bool
  lastSpawnWorldPos : V3
  smoothedPinchPos : V3
  referenceHandScale : ℚ
  smoothedHandScale : ℚ
  isRotating : Bool
  rotationPrevPos : ℚ × ℚ
  eraseMode : Bool
  paletteIndex : Nat
  currentFps : Nat
  lowFpsAccumulator : Nat
  performanceWarning : Bool
  lastHandCount : Nat

/-- Controller state after the constructor and `initialize()`: fresh grid
with `cellSize` / `maxBoxes` from the config, fresh renderer, all
interaction state cleared. -/
def Controller.mk0 (config : VoxelConfig) (maxTilt : ℚ) : Controller :=
  { config := config
    grid := VoxelGrid.mk0 config.cellSize config.maxBoxes
    rend := Renderer.mk0 maxTilt
    isDrawing := false
    lastSpawnWorldPos := ⟨0, 0, 0⟩
    smoothedPinchPos := ⟨0, 0, 0⟩
    referenceHandScale := 0
    smoothedHandScale := 0
    isRotating := false
    rotationPrevPos := (0, 0)
    eraseMode := false
    paletteIndex := 0
    currentFps := 60
    lowFpsAccumulator := 0
    performanceWarning := false
    lastHandCount := 0 }

/-- `trySpawnBox`: blocked entirely while the performance warning is set;
otherwise ask the grid to add the cell, and only on success mirror the
box into the renderer and record the spawn position. -/
def Controller.trySpawnBox (c : Controller) (gx gy gz : Int) (worldPos : V3) : Controller :=
  if c.performanceWarning then c
  else
    let res := c.grid.add gx gy gz
    if res.1 then
      { c with grid := res.2, rend := c.rend.addBox res.2 gx gy gz,
               lastSpawnWorldPos := worldPos }
    else { c with grid := res.2 }

/-- `tryEraseBox`: ask the grid to remove the cell, and only on success
remove the visual (the renderer boolean result is dropped, as in the
source). -/
def Controller.tryEraseBox (c : Controller) (gx gy gz : Int) : Controller :=
  let res := c.grid.remove gx gy gz
  if res.1 then
    { c with grid := res.2, rend := (c.rend.removeBox res.2 gx gy gz).2 }
  else { c with grid := res.2 }

/-- `endDrawing`: no-op unless a stroke is in progress; otherwise clear
the drawing flag and hide the ghost preview. -/
def Controller.endDrawing (c : Controller) : Controller :=
  if c.isDrawing then
    { c with isDrawing := false, rend := c.rend.updateGhostPreview ⟨0, 0, 0⟩ false }
  else c

/-- `handleRightPinch`: transform the world position into build-local
space with the inverse group rotation, snap to the grid, and drive the
place / erase tool through the gesture lifecycle.  The inverse group
quaternion is render-loop state interpolated toward the rotation targets;
its action on positions enters the model as the `invRot` argument. -/
def Controller.handleRightPinch (c : Controller) (invRot : V3 → V3)
    (state : GState) (worldPos : V3) : Controller :=
  let localPos := invRot worldPos
  let gridPos := c.grid.worldToGrid localPos
  let snapped := c.grid.gridToWorld gridPos
  match state with
  | .started =>
    let c1 := { c with isDrawing := true,
                       rend := c.rend.updateGhostPreview snapped true }
    if c1.eraseMode then c1.tryEraseBox gridPos.gx gridPos.gy gridPos.gz
    else c1.trySpawnBox gridPos.gx gridPos.gy gridPos.gz snapped
  | .active =>
    let c1 := { c with rend := c.rend.updateGhostPreview snapped true }
    if c1.config.spawnDistance ^ 2 ≤ V3.distSq localPos c1.lastSpawnWorldPos then
      if c1.eraseMode then c1.tryEraseBox gridPos.gx gridPos.gy gridPos.gz
      else c1.trySpawnBox gridPos.gx gridPos.gy gridPos.gz snapped
    else c1
  | .ended => c.endDrawing

/-- `handleLeftPinch`: the orbit tool.  STARTED captures the drag anchor;
ACTIVE (while rotating) maps the normalized-screen delta to yaw / tilt
deltas and refreshes the anchor; ENDED stops rotating. -/
def Controller.handleLeftPinch (c : Controller) (state : GState)
    (normPos : ℚ × ℚ) : Controller :=
  match state with
  | .started => { c with isRotating := true, rotationPrevPos := normPos }
  | .active =>
    if c.isRotating then
      let dx := normPos.1 - c.rotationPrevPos.1
      let dy := normPos.2 - c.rotationPrevPos.2
      { c with
        rend := c.rend.applyRotationDelta (-dx * ROTATION_SENSITIVITY)
                  (dy * ROTATION_SENSITIVITY),
        rotationPrevPos := normPos }
    else c
  | .ended => { c with isRotating := false }

/-- `handleLeftFist`: erase mode is held exactly while the fist gesture
is STARTED or ACTIVE and dropped on ENDED. -/
def Controller.handleLeftFist (c : Controller) (state : GState) : Controller :=
  match state with
  | .started | .active =>
    if c.eraseMode then c
    else { c with eraseMode := true, rend := c.rend.setEraseMode true }
  | .ended => { c with eraseMode := false, rend := c.rend.setEraseMode false }

/-- `cyclePalette`: advance the palette index modulo the catalog size and
apply the palette to the renderer. -/
def Controller.cyclePalette (c : Controller) : Controller :=
  let idx := (c.paletteIndex + 1) % VOXEL_PALETTES.length
  { c with paletteIndex := idx,
           rend := c.rend.setPalette c.grid
             (VOXEL_PALETTES.getD idx ⟨"", (0,0,0), (0,0,0), 0, 0, 0⟩) }

/-- `computeDepthCorrectedPosition`: the depth estimator.  The raw hand
scale (the 2D wrist-to-middle-MCP distance computed by
`computeHandScale`, irrational in general) enters as `rawScale`, with
`none` standing for unavailable landmarks.  Missing landmarks or a
nonpositive scale fall back to the uncorrected position.  Otherwise the
scale is exponentially smoothed (reinitialized at START or when the
smoothed scale is zero); START captures the smoothed scale as the
reference and emits `z = 0`; later states with a positive reference emit
`z = ((smoothed - reference) / reference) * DEPTH_SCALE_SENSITIVITY`.
Returns the updated controller state and the emitted position. -/
def Controller.computeDepthCorrectedPosition (c : Controller) (pos : V3)
    (rawScale : Option ℚ) (state : GState) : Controller × V3 :=
  match rawScale with
  | none => (c, pos)
  | some raw =>
    if raw ≤ 0 then (c, pos)
    else
      let smoothed :=
        if c.smoothedHandScale = 0 ∨ state = .started then raw
        else DEPTH_SMOOTHING_FACTOR * raw +
             (1 - DEPTH_SMOOTHING_FACTOR) * c.smoothedHandScale
      let c1 := { c with smoothedHandScale := smoothed }
      if state = .started then
        ({ c1 with referenceHandScale := smoothed }, { pos with z := 0 })
      else if 0 < c1.referenceHandScale then
        let normalizedDelta := (smoothed - c1.referenceHandScale) / c1.referenceHandScale
        (c1, { pos with z := normalizedDelta * DEPTH_SCALE_SENSITIVITY })
      else (c1, pos)

/-- One frame of tracker output as the controller consumes it: the number
of detected hands, the raw right-hand scale (already reduced from the
landmarks; `none` when there is no right hand or landmarks are missing),
the classified gesture events, and the position-smoothing blend
`alpha = 1 - e^(-POSITION_SMOOTHING_SPEED * dt)` of this frame
(transcendental in `dt`, so it enters the model as the sampled value). -/
structure HandFrame where
  numHands : Nat
  rightScale : Option ℚ
  events : List GEvent
  alpha : ℚ

/-- Processing of one gesture event inside the `processHands` loop,
threading the `(state, rightPinchHandled, leftPinchHandled, fistHandled)`
accumulator. -/
def Controller.stepEvent (invRot : V3 → V3) (rightScale : Option ℚ) (alpha : ℚ)
    (acc : Controller × Bool × Bool × Bool) (e : GEvent) :
    Controller × Bool × Bool × Bool :=
  let c := acc.1
  let rp := acc.2.1
  let lp := acc.2.2.1
  let fh := acc.2.2.2
  match e.type, e.data.handedness with
  | .pinch, .right =>
    let res := c.computeDepthCorrectedPosition e.data.position rightScale e.state
    let smoothed :=
      if e.state = .started then res.2
      else V3.lerp res.1.smoothedPinchPos res.2 alpha
    let c2 := { res.1 with smoothedPinchPos := smoothed }
    (c2.handleRightPinch invRot e.state smoothed, true, lp, fh)
  | .pinch, .left => (c.handleLeftPinch e.state e.data.normalizedPosition, rp, true, fh)
  | .pinch, .unknown => (c, rp, lp, fh)
  | .fist, .left => (c.handleLeftFist e.state, rp, lp, true)
  | .fist, _ => (c, rp, lp, fh)
  | .pinkyPinch, _ =>
    if e.state = .started then (c.cyclePalette, rp, lp, fh) else (c, rp, lp, fh)

/-- `processHands`: a `none` tracker result or a frame with zero hands
records a hand count of zero and ends the drawing stroke.  Otherwise the
gesture events are folded in order, and afterwards any role that saw no
event this frame is implicitly ended: drawing, then rotation, then erase
mode. -/
def Controller.processHands (c : Controller) (invRot : V3 → V3)
    (frame : Option HandFrame) : Controller :=
  match frame with
  | none => ({ c with lastHandCount := 0 }).endDrawing
  | some f =>
    if f.numHands = 0 then ({ c with lastHandCount := 0 }).endDrawing
    else
      let c0 := { c with lastHandCount := f.numHands }
      let acc := f.events.foldl (Controller.stepEvent invRot f.rightScale f.alpha)
        (c0, false, false, false)
      let c1 := acc.1
      let c2 := if acc.2.1 = false ∧ c1.isDrawing then c1.endDrawing else c1
      let c3 := if acc.2.2.1 = false ∧ c2.isRotating then { c2 with isRotating := false } else c2
      if acc.2.2.2 = false ∧ c3.eraseMode then
        { c3 with eraseMode := false, rend := c3.rend.setEraseMode false }
      else c3

/-- `updatePerformanceWarning`: called once per second.  While the FPS is
below the threshold and at least one cell is occupied, the low-FPS
accumulator grows, and reaching the configured duration sets the warning.
Otherwise the accumulator resets — but a warning already set is kept. -/
def Controller.updatePerformanceWarning (c : Controller) : Controller :=
  if c.currentFps < c.config.fpsWarningThreshold ∧ 0 < c.grid.count then
    let acc := c.lowFpsAccumulator + 1
    if c.config.fpsWarningDurationSec ≤ acc then
      { c with lowFpsAccumulator := acc, performanceWarning := true }
    else { c with lowFpsAccumulator := acc }
  else { c with lowFpsAccumulator := 0 }

/-- `reset`: clear the grid and the renderer boxes, restore the default
rotation, clear every interaction flag and the erase visual, clear the
performance warning and accumulator, and zero the depth scales. -/
def Controller.reset (c : Controller) : Controller :=
  { c with
    grid := c.grid.clear
    rend := ((c.rend.clearBoxes).resetRotation).setEraseMode false
    isDrawing := false
    isRotating := false
    eraseMode := false
    performanceWarning := false
    lowFpsAccumulator := 0
    referenceHandScale := 0
    smoothedHandScale := 0 }

/-- The two write paths into the shared spatial state that gesture
handling routes through the controller. -/
inductive BuildOp
  | spawn (gx gy gz : Int) (pos : V3)
  | erase (gx gy gz : Int)

/-- Apply one controller write operation. -/
def Controller.applyOp (c : Controller) (op : BuildOp) : Controller :=
  match op with
  | .spawn gx gy gz pos => c.trySpawnBox gx gy gz pos
  | .erase gx gy gz => c.tryEraseBox gx gy gz

/-- Run a sequence of controller write operations left to right. -/
def Controller.runOps (c : Controller) (ops : List BuildOp) : Controller :=
  ops.foldl Controller.applyOp c

/-- The store / render-buffer synchronization invariant: the grid
capacity is the configured `maxBoxes`; the live instance count equals the
store count, which never exceeds capacity; the occupied-cell list has no
duplicates; the multiset of record cells equals the multiset of occupied
cells (so every occupied cell has exactly one record); and the record
instance indices are exactly `0, …, instanceCount - 1` (every record
sits at some live slot, no slot holds two records, no hole). -/
def SyncInv (c : Controller) : Prop :=
  c.grid.maxCells = c.config.maxBoxes ∧
  c.rend.instanceCount = c.grid.count ∧
  c.grid.count ≤ c.grid.maxCells ∧
  c.grid.occupied.Nodup ∧
  (c.rend.boxes.map BoxRecord.cell).Perm c.grid.occupied ∧
  (c.rend.boxes.map BoxRecord.instanceIndex).Perm (List.range c.rend.instanceCount)

/-- The tracked vertical extent agrees with a full rescan of the
occupied cells. -/
def extentOK (g : VoxelGrid) : Prop :=
  g.minY = recomputeMinY g.occupied ∧ g.maxY = recomputeMaxY g.occupied

/-! ## Concrete states for the specified scenarios

The tilt-clamp argument of `Controller.mk0` is `Math.PI / 3` in the
source; it is irrelevant to each property below, so `1` is passed. -/

/-- A fresh store with the given configuration, after a sequence of
contract operations. -/
def runFresh (cs : ℚ) (mc : Nat) (ops : List GridOp) : VoxelGrid :=
  (VoxelGrid.mk0 cs mc).runOps ops

/-- Scenario D, before the removal: cells A=(0,0,0), B=(1,0,0),
C=(2,0,0) placed in order (instance indices 0, 1, 2). -/
def scenarioDPre : Controller :=
  (Controller.mk0 DEFAULT_VOXEL_BUILDER_CONFIG 1).runOps
    [.spawn 0 0 0 ⟨0, 0, 0⟩, .spawn 1 0 0 ⟨9/20, 0, 0⟩, .spawn 2 0 0 ⟨9/10, 0, 0⟩]

/-- Scenario D: the state of `scenarioDPre` after erasing B. -/
def scenarioD : Controller :=
  scenarioDPre.runOps [.erase 1 0 0]

/-- A fresh controller whose performance warning is set (the FPS field
still reads 60, i.e. above the default threshold 30). -/
def warnedIdle : Controller :=
  { Controller.mk0 DEFAULT_VOXEL_BUILDER_CONFIG 1 with performanceWarning := true }

/-- A controller with one placed cell whose performance warning is set
while the FPS field reads 60, i.e. the frame rate has recovered above
the default threshold 30. -/
def warnedBuilt : Controller :=
  { (Controller.mk0 DEFAULT_VOXEL_BUILDER_CONFIG 1).runOps
      [.spawn 0 0 0 ⟨0, 0, 0⟩] with performanceWarning := true }

/-- A fresh controller in the middle of a rotation drag with erase mode
held. -/
def rotatingErasing : Controller :=
  { Controller.mk0 DEFAULT_VOXEL_BUILDER_CONFIG 1 with
    isRotating := true, eraseMode := true }

/-- A fresh controller whose depth reference was captured at smoothed
scale 1/5 (= 0.2). -/
def depthAnchored : Controller :=
  { Controller.mk0 DEFAULT_VOXEL_BUILDER_CONFIG 1 with
    referenceHandScale := 1/5, smoothedHandScale := 1/5 }

/-- A fresh controller with erase mode held. -/
def eraseHeld : Controller :=
  { Controller.mk0 DEFAULT_VOXEL_BUILDER_CONFIG 1 with eraseMode := true }

/-- A tracker frame with zero hands. -/
def emptyFrame : HandFrame :=
  ⟨0, none, [], 0⟩

/-- A two-cell store at heights 0 and 3 with its tracked extent. -/
def gradGrid : VoxelGrid :=
  ⟨9/20, 1000, [⟨0, 0, 0⟩, ⟨0, 3, 0⟩], some 0, some 3⟩

/-- A renderer holding the two records mirroring `gradGrid`. -/
def gradRend : Renderer :=
  { Renderer.mk0 1 with boxes := [⟨0, 0, 0, 0⟩, ⟨0, 3, 0, 1⟩], instanceCount := 2 }

/-! ## Lemmas about the list helpers -/

theorem getAt_mem {α : Type} (d : α) :
    ∀ (l : List α) (i : Nat), i < l.length → getAt l i d ∈ l := by
  intro l
  induction l with
  | nil => intro i h; simp at h
  | cons a t ih =>
    intro i h
    cases i with
    | zero => simp [getAt]
    | succ j =>
      exact List.mem_cons_of_mem a (ih j (Nat.lt_of_succ_lt_succ h))

theorem findIndex_none_iff {α : Type} (p : α → Bool) :
    ∀ (l : List α), findIndex p l = none ↔ ∀ x ∈ l, p x = false := by
  intro l
  induction l with
  | nil => simp [findIndex]
  | cons a t ih =>
    by_cases hpa : p a
    · simp [findIndex, hpa]
    · cases hft : findIndex p t with
      | none =>
        simp only [findIndex, hpa, if_false, hft, Option.map_none']
        simp only [hft, true_iff] at ih
        simp [ih, hpa, Bool.not_eq_true] at hpa ⊢
        exact fun x hx => ih x hx
      | some i =>
        simp only [findIndex, hpa, if_false, hft, Option.map_some']
        constructor
        · intro h; exact absurd h (by simp)
        · intro h
          have : p a = false := h a (List.mem_cons_self a t)
          have ht : ∀ x ∈ t, p x = false := fun x hx => h x (List.mem_cons_of_mem a hx)
          rw [ih.mpr ht] at hft
          exact absurd hft (by simp)

theorem findIndex_lt_length {α : Type} {p : α → Bool} :
    ∀ {l : List α} {i : Nat}, findIndex p l = some i → i < l.length := by
  intro l
  induction l with
  | nil => intro i h; simp [findIndex] at h
  | cons a t ih =>
    intro i h
    cases hpa : p a with
    | true =>
      simp [findIndex, hpa] at h
      simp [← h]
    | false =>
      simp only [findIndex, hpa] at h
      cases hft : findIndex p t with
      | none => rw [hft] at h; simp at h
      | some j =>
        rw [hft] at h
        simp at h
        have hjt := ih hft
        simp only [List.length_cons]
        omega

theorem findIndex_getAt {α : Type} {p : α → Bool} (d : α) :
    ∀ {l : List α} {i : Nat}, findIndex p l = some i → p (getAt l i d) = true := by
  intro l
  induction l with
  | nil => intro i h; simp [findIndex] at h
  | cons a t ih =>
    intro i h
    cases hpa : p a with
    | true =>
      simp [findIndex, hpa] at h
      subst h
      simpa [getAt] using hpa
    | false =>
      simp only [findIndex, hpa] at h
      cases hft : findIndex p t with
      | none => rw [hft] at h; simp at h
      | some j =>
        rw [hft] at h
        simp at h
        have hjt := ih hft
        rw [← h]
        simpa [getAt] using hjt

theorem findIndex_isSome_of_mem {α : Type} {p : α → Bool} {x : α} :
    ∀ {l : List α}, x ∈ l → p x = true → ∃ i, findIndex p l = some i := by
  intro l
  induction l with
  | nil => intro h; simp at h
  | cons a t ih =>
    intro hmem hpx
    by_cases hpa : p a
    · exact ⟨0, by simp [findIndex, hpa]⟩
    · rcases List.mem_cons.mp hmem with rfl | hmt
      · exact absurd hpx hpa
      · rcases ih hmt hpx with ⟨j, hj⟩
        exact ⟨j + 1, by simp [findIndex, hpa, hj]⟩

theorem map_removeAt {α β : Type} (f : α → β) :
    ∀ (l : List α) (i : Nat), (removeAt l i).map f = removeAt (l.map f) i := by
  intro l
  induction l with
  | nil => intro i; simp [removeAt]
  | cons a t ih =>
    intro i
    cases i with
    | zero => simp [removeAt]
    | succ j => simp [removeAt, ih j]

theorem getAt_map {α β : Type} (f : α → β) (d : α) :
    ∀ (l : List α) (i : Nat), getAt (l.map f) i (f d) = f (getAt l i d) := by
  intro l
  induction l with
  | nil => intro i; simp [getAt]
  | cons a t ih =>
    intro i
    cases i with
    | zero => simp [getAt]
    | succ j => simp [getAt, ih j]

theorem perm_cons_removeAt {α : Type} (d : α) :
    ∀ (l : List α) (i : Nat), i < l.length → l.Perm (getAt l i d :: removeAt l i) := by
  intro l
  induction l with
  | nil => intro i h; simp at h
  | cons a t ih =>
    intro i h
    cases i with
    | zero => simp [getAt, removeAt]
    | succ j =>
      have hj : j < t.length := Nat.lt_of_succ_lt_succ h
      have h1 : (a :: t).Perm (a :: (getAt t j d :: removeAt t j)) := (ih j hj).cons a
      have h2 : (a :: (getAt t j d :: removeAt t j)).Perm
          (getAt t j d :: (a :: removeAt t j)) := List.Perm.swap _ _ _
      simpa [getAt, removeAt] using h1.trans h2

theorem replaceFirst_perm {α : Type} [DecidableEq α] {a : α} (b : α) :
    ∀ {l : List α}, a ∈ l → (replaceFirst l a b).Perm (b :: l.erase a) := by
  intro l
  induction l with
  | nil => intro h; simp at h
  | cons x t ih =>
    intro hmem
    by_cases hxa : x = a
    · subst hxa
      simp [replaceFirst, List.erase_cons_head]
    · have hmt : a ∈ t := by
        rcases List.mem_cons.mp hmem with rfl | h
        · exact absurd rfl hxa
        · exact h
      have h1 : (replaceFirst t a b).Perm (b :: t.erase a) := ih hmt
      have h2 : (x :: replaceFirst t a b).Perm (x :: (b :: t.erase a)) := h1.cons x
      have h3 : (x :: (b :: t.erase a)).Perm (b :: (x :: t.erase a)) := List.Perm.swap _ _ _
      have hne : ¬(x == a) = true := by simpa using hxa
      simp only [replaceFirst, hxa, if_false]
      rw [List.erase_cons_tail]
      · exact h2.trans h3
      · simpa using hxa

theorem getAt_replaceFirst_of_ne {α : Type} [DecidableEq α] {a b v : α} :
    ∀ {l : List α} {i : Nat} {d : α}, getAt l i d = v → v ≠ a →
      getAt (replaceFirst l a b) i d = v := by
  intro l
  induction l with
  | nil => intro i d h _; simpa [replaceFirst] using h
  | cons x t ih =>
    intro i d h hva
    cases i with
    | zero =>
      simp only [getAt] at h
      subst h
      simp [replaceFirst, hva, getAt]
    | succ j =>
      simp only [getAt] at h
      by_cases hxa : x = a
      · simp [replaceFirst, hxa, getAt, h]
      · simp only [replaceFirst, hxa, if_false, getAt]
        exact ih h hva

theorem reindexLast_map_cell (a b : Nat) :
    ∀ (l : List BoxRecord),
      (reindexLast l a b).map BoxRecord.cell = l.map BoxRecord.cell := by
  intro l
  induction l with
  | nil => simp [reindexLast]
  | cons x t ih =>
    by_cases hx : x.instanceIndex = a
    · simp [reindexLast, hx, BoxRecord.cell]
    · simp [reindexLast, hx, ih]

theorem reindexLast_map_idx (a b : Nat) :
    ∀ (l : List BoxRecord),
      (reindexLast l a b).map BoxRecord.instanceIndex =
        replaceFirst (l.map BoxRecord.instanceIndex) a b := by
  intro l
  induction l with
  | nil => simp [reindexLast, replaceFirst]
  | cons x t ih =>
    by_cases hx : x.instanceIndex = a
    · simp [reindexLast, hx, replaceFirst]
    · simp [reindexLast, hx, replaceFirst, ih]

/-! ## Lemmas about the occupancy store -/

theorem VoxelGrid.add_fail (g : VoxelGrid) (gx gy gz : Int)
    (h : g.maxCells ≤ g.occupied.length ∨ (⟨gx, gy, gz⟩ : Cell) ∈ g.occupied) :
    g.add gx gy gz = (false, g) := by
  unfold VoxelGrid.add
  split_ifs with h1 h2
  · rfl
  · rfl
  · rcases h with h | h
    · exact absurd h h1
    · exact absurd h h2

theorem VoxelGrid.add_success (g : VoxelGrid) (gx gy gz : Int)
    (hcap : g.occupied.length < g.maxCells)
    (hmem : (⟨gx, gy, gz⟩ : Cell) ∉ g.occupied) :
    g.add gx gy gz = (true, { g with
      occupied := g.occupied ++ [⟨gx, gy, gz⟩],
      minY := minStep g.minY gy,
      maxY := maxStep g.maxY gy }) := by
  unfold VoxelGrid.add
  rw [if_neg (by omega), if_neg hmem]

theorem VoxelGrid.remove_of_mem (g : VoxelGrid) (gx gy gz : Int)
    (h : (⟨gx, gy, gz⟩ : Cell) ∈ g.occupied) :
    g.remove gx gy gz = (true, { g with
      occupied := g.occupied.erase ⟨gx, gy, gz⟩,
      minY := recomputeMinY (g.occupied.erase ⟨gx, gy, gz⟩),
      maxY := recomputeMaxY (g.occupied.erase ⟨gx, gy, gz⟩) }) := by
  unfold VoxelGrid.remove
  rw [if_pos h]

theorem VoxelGrid.remove_of_not_mem (g : VoxelGrid) (gx gy gz : Int)
    (h : (⟨gx, gy, gz⟩ : Cell) ∉ g.occupied) :
    g.remove gx gy gz = (false, g) := by
  unfold VoxelGrid.remove
  rw [if_neg h]

theorem VoxelGrid.applyOp_maxCells (g : VoxelGrid) (op : GridOp) :
    (g.applyOp op).maxCells = g.maxCells := by
  cases op with
  | add gx gy gz =>
    by_cases hcap : g.maxCells ≤ g.occupied.length
    · rw [VoxelGrid.applyOp, VoxelGrid.add_fail g gx gy gz (Or.inl hcap)]
    · by_cases hmem : (⟨gx, gy, gz⟩ : Cell) ∈ g.occupied
      · rw [VoxelGrid.applyOp, VoxelGrid.add_fail g gx gy gz (Or.inr hmem)]
      · rw [VoxelGrid.applyOp, VoxelGrid.add_success g gx gy gz (by omega) hmem]
  | remove gx gy gz =>
    by_cases hmem : (⟨gx, gy, gz⟩ : Cell) ∈ g.occupied
    · rw [VoxelGrid.applyOp, VoxelGrid.remove_of_mem g gx gy gz hmem]
    · rw [VoxelGrid.applyOp, VoxelGrid.remove_of_not_mem g gx gy gz hmem]
  | clear => rfl

theorem VoxelGrid.applyOp_count_le (g : VoxelGrid) (op : GridOp)
    (h : g.count ≤ g.maxCells) : (g.applyOp op).count ≤ (g.applyOp op).maxCells := by
  rw [VoxelGrid.applyOp_maxCells]
  cases op with
  | add gx gy gz =>
    by_cases hcap : g.maxCells ≤ g.occupied.length
    · rw [VoxelGrid.applyOp, VoxelGrid.add_fail g gx gy gz (Or.inl hcap)]; exact h
    · by_cases hmem : (⟨gx, gy, gz⟩ : Cell) ∈ g.occupied
      · rw [VoxelGrid.applyOp, VoxelGrid.add_fail g gx gy gz (Or.inr hmem)]; exact h
      · rw [VoxelGrid.applyOp, VoxelGrid.add_success g gx gy gz (by omega) hmem]
        simp only [VoxelGrid.count, List.length_append, List.length_singleton]
        omega
  | remove gx gy gz =>
    by_cases hmem : (⟨gx, gy, gz⟩ : Cell) ∈ g.occupied
    · rw [VoxelGrid.applyOp, VoxelGrid.remove_of_mem g gx gy gz hmem]
      simp only [VoxelGrid.count] at h ⊢
      have := List.length_erase_of_mem hmem
      omega
    · rw [VoxelGrid.applyOp, VoxelGrid.remove_of_not_mem g gx gy gz hmem]; exact h
  | clear =>
    simp [VoxelGrid.applyOp, VoxelGrid.clear, VoxelGrid.count]

theorem VoxelGrid.runOps_count_le (ops : List GridOp) :
    ∀ (g : VoxelGrid), g.count ≤ g.maxCells →
      (g.runOps ops).count ≤ (g.runOps ops).maxCells := by
  induction ops with
  | nil => intro g h; exact h
  | cons op rest ih =>
    intro g h
    exact ih (g.applyOp op) (VoxelGrid.applyOp_count_le g op h)

theorem recomputeMinY_append (l : List Cell) (c : Cell) :
    recomputeMinY (l ++ [c]) = minStep (recomputeMinY l) c.gy := by
  unfold recomputeMinY
  rw [List.foldl_append]
  rfl

theorem recomputeMaxY_append (l : List Cell) (c : Cell) :
    recomputeMaxY (l ++ [c]) = maxStep (recomputeMaxY l) c.gy := by
  unfold recomputeMaxY
  rw [List.foldl_append]
  rfl

theorem extentOK_applyOp (g : VoxelGrid) (op : GridOp) (h : extentOK g) :
    extentOK (g.applyOp op) := by
  cases op with
  | add gx gy gz =>
    by_cases hcap : g.maxCells ≤ g.occupied.length
    · rw [VoxelGrid.applyOp, VoxelGrid.add_fail g gx gy gz (Or.inl hcap)]; exact h
    · by_cases hmem : (⟨gx, gy, gz⟩ : Cell) ∈ g.occupied
      · rw [VoxelGrid.applyOp, VoxelGrid.add_fail g gx gy gz (Or.inr hmem)]; exact h
      · rw [VoxelGrid.applyOp, VoxelGrid.add_success g gx gy gz (by omega) hmem]
        constructor
        · show minStep g.minY gy = recomputeMinY (g.occupied ++ [⟨gx, gy, gz⟩])
          rw [recomputeMinY_append, h.1]
        · show maxStep g.maxY gy = recomputeMaxY (g.occupied ++ [⟨gx, gy, gz⟩])
          rw [recomputeMaxY_append, h.2]
  | remove gx gy gz =>
    by_cases hmem : (⟨gx, gy, gz⟩ : Cell) ∈ g.occupied
    · rw [VoxelGrid.applyOp, VoxelGrid.remove_of_mem g gx gy gz hmem]
      exact ⟨rfl, rfl⟩
    · rw [VoxelGrid.applyOp, VoxelGrid.remove_of_not_mem g gx gy gz hmem]; exact h
  | clear => exact ⟨rfl, rfl⟩

theorem extentOK_runOps (ops : List GridOp) :
    ∀ (g : VoxelGrid), extentOK g → extentOK (g.runOps ops) := by
  induction ops with
  | nil => intro g h; exact h
  | cons op rest ih => intro g h; exact ih (g.applyOp op) (extentOK_applyOp g op h)

theorem foldl_minStep_spec :
    ∀ (l : List Cell) (m : Int),
      ∃ mf, List.foldl (fun a c => minStep a c.gy) (some m) l = some mf ∧
        mf ≤ m ∧ (mf = m ∨ ∃ c ∈ l, c.gy = mf) ∧ ∀ c ∈ l, mf ≤ c.gy := by
  intro l
  induction l with
  | nil => intro m; exact ⟨m, rfl, le_refl m, Or.inl rfl, by simp⟩
  | cons c t ih =>
    intro m
    by_cases hlt : c.gy < m
    · rcases ih c.gy with ⟨mf, hfold, hle, hor, hall⟩
      refine ⟨mf, ?_, by omega, ?_, ?_⟩
      · simpa [minStep, hlt] using hfold
      · rcases hor with rfl | ⟨d, hd, hdy⟩
        · exact Or.inr ⟨c, List.mem_cons_self c t, rfl⟩
        · exact Or.inr ⟨d, List.mem_cons_of_mem c hd, hdy⟩
      · intro d hd
        rcases List.mem_cons.mp hd with rfl | hdt
        · exact hle
        · exact hall d hdt
    · rcases ih m with ⟨mf, hfold, hle, hor, hall⟩
      refine ⟨mf, ?_, hle, ?_, ?_⟩
      · simpa [minStep, hlt] using hfold
      · rcases hor with rfl | ⟨d, hd, hdy⟩
        · exact Or.inl rfl
        · exact Or.inr ⟨d, List.mem_cons_of_mem c hd, hdy⟩
      · intro d hd
        rcases List.mem_cons.mp hd with rfl | hdt
        · omega
        · exact hall d hdt

theorem foldl_maxStep_spec :
    ∀ (l : List Cell) (m : Int),
      ∃ mf, List.foldl (fun a c => maxStep a c.gy) (some m) l = some mf ∧
        m ≤ mf ∧ (mf = m ∨ ∃ c ∈ l, c.gy = mf) ∧ ∀ c ∈ l, c.gy ≤ mf := by
  intro l
  induction l with
  | nil => intro m; exact ⟨m, rfl, le_refl m, Or.inl rfl, by simp⟩
  | cons c t ih =>
    intro m
    by_cases hlt : m < c.gy
    · rcases ih c.gy with ⟨mf, hfold, hle, hor, hall⟩
      refine ⟨mf, ?_, by omega, ?_, ?_⟩
      · simpa [maxStep, hlt] using hfold
      · rcases hor with rfl | ⟨d, hd, hdy⟩
        · exact Or.inr ⟨c, List.mem_cons_self c t, rfl⟩
        · exact Or.inr ⟨d, List.mem_cons_of_mem c hd, hdy⟩
      · intro d hd
        rcases List.mem_cons.mp hd with rfl | hdt
        · exact hle
        · exact hall d hdt
    · rcases ih m with ⟨mf, hfold, hle, hor, hall⟩
      refine ⟨mf, ?_, hle, ?_, ?_⟩
      · simpa [maxStep, hlt] using hfold
      · rcases hor with rfl | ⟨d, hd, hdy⟩
        · exact Or.inl rfl
        · exact Or.inr ⟨d, List.mem_cons_of_mem c hd, hdy⟩
      · intro d hd
        rcases List.mem_cons.mp hd with rfl | hdt
        · omega
        · exact hall d hdt

theorem recomputeMinY_spec (c : Cell) (t : List Cell) :
    ∃ m, recomputeMinY (c :: t) = some m ∧
      (∃ d ∈ c :: t, d.gy = m) ∧ ∀ d ∈ c :: t, m ≤ d.gy := by
  rcases foldl_minStep_spec t c.gy with ⟨mf, hfold, hle, hor, hall⟩
  refine ⟨mf, ?_, ?_, ?_⟩
  · show List.foldl (fun a d => minStep a d.gy) (minStep none c.gy) t = some mf
    simpa [minStep] using hfold
  · rcases hor with rfl | ⟨d, hd, hdy⟩
    · exact ⟨c, List.mem_cons_self c t, rfl⟩
    · exact ⟨d, List.mem_cons_of_mem c hd, hdy⟩
  · intro d hd
    rcases List.mem_cons.mp hd with rfl | hdt
    · exact hle
    · exact hall d hdt

theorem recomputeMaxY_spec (c : Cell) (t : List Cell) :
    ∃ m, recomputeMaxY (c :: t) = some m ∧
      (∃ d ∈ c :: t, d.gy = m) ∧ ∀ d ∈ c :: t, d.gy ≤ m := by
  rcases foldl_maxStep_spec t c.gy with ⟨mf, hfold, hle, hor, hall⟩
  refine ⟨mf, ?_, ?_, ?_⟩
  · show List.foldl (fun a d => maxStep a d.gy) (maxStep none c.gy) t = some mf
    simpa [maxStep] using hfold
  · rcases hor with rfl | ⟨d, hd, hdy⟩
    · exact ⟨c, List.mem_cons_self c t, rfl⟩
    · exact ⟨d, List.mem_cons_of_mem c hd, hdy⟩
  · intro d hd
    rcases List.mem_cons.mp hd with rfl | hdt
    · exact hle
    · exact hall d hdt

/-! ## Lemmas about the render-buffer synchronizer -/

theorem replaceFirst_length {α : Type} [DecidableEq α] (a b : α) :
    ∀ (l : List α), (replaceFirst l a b).length = l.length := by
  intro l
  induction l with
  | nil => rfl
  | cons x t ih =>
    by_cases hx : x = a
    · simp [replaceFirst, hx]
    · simp [replaceFirst, hx, ih]

theorem updateAllColors_boxes (r : Renderer) (g : VoxelGrid) :
    (r.updateAllColors g).boxes = r.boxes := rfl

theorem updateAllColors_instanceCount (r : Renderer) (g : VoxelGrid) :
    (r.updateAllColors g).instanceCount = r.instanceCount := rfl

theorem updateAllColors_mats (r : Renderer) (g : VoxelGrid) :
    (r.updateAllColors g).mats = r.mats := rfl

theorem boxPred_iff (gx gy gz : Int) (b : BoxRecord) :
    boxPred gx gy gz b = true ↔ b.cell = (⟨gx, gy, gz⟩ : Cell) := by
  simp [boxPred, BoxRecord.cell, Cell.mk.injEq, and_assoc]

theorem addBox_boxes (r : Renderer) (g : VoxelGrid) (gx gy gz : Int) :
    (r.addBox g gx gy gz).boxes = r.boxes ++ [⟨gx, gy, gz, r.instanceCount⟩] := rfl

theorem addBox_instanceCount (r : Renderer) (g : VoxelGrid) (gx gy gz : Int) :
    (r.addBox g gx gy gz).instanceCount = r.instanceCount + 1 := rfl

theorem removeBox_not_found (r : Renderer) (g : VoxelGrid) (gx gy gz : Int)
    (h : findIndex (boxPred gx gy gz) r.boxes = none) :
    r.removeBox g gx gy gz = (false, r) := by
  unfold Renderer.removeBox
  rw [h]

theorem removeBox_eq_of_found_last (r : Renderer) (g : VoxelGrid) (gx gy gz : Int)
    (idx : Nat) (hfind : findIndex (boxPred gx gy gz) r.boxes = some idx)
    (hlast : (getAt r.boxes idx ⟨0, 0, 0, 0⟩).instanceIndex = r.instanceCount - 1) :
    r.removeBox g gx gy gz =
      (true, ({ r with
        boxes := removeAt r.boxes idx,
        instanceCount := r.instanceCount - 1,
        edges := if idx < r.edges.length then removeAt r.edges idx
                 else r.edges }).updateAllColors g) := by
  unfold Renderer.removeBox
  rw [hfind]
  simp only [hlast, if_pos]

theorem removeBox_eq_of_found_swap (r : Renderer) (g : VoxelGrid) (gx gy gz : Int)
    (idx : Nat) (hfind : findIndex (boxPred gx gy gz) r.boxes = some idx)
    (hlast : ¬ (getAt r.boxes idx ⟨0, 0, 0, 0⟩).instanceIndex = r.instanceCount - 1) :
    r.removeBox g gx gy gz =
      (true, ({ r with
        mats := fun i =>
          if i = (getAt r.boxes idx ⟨0, 0, 0, 0⟩).instanceIndex
          then r.mats (r.instanceCount - 1) else r.mats i,
        cols := fun i =>
          if i = (getAt r.boxes idx ⟨0, 0, 0, 0⟩).instanceIndex
          then r.cols (r.instanceCount - 1) else r.cols i,
        boxes := removeAt
          (reindexLast r.boxes (r.instanceCount - 1)
            (getAt r.boxes idx ⟨0, 0, 0, 0⟩).instanceIndex) idx,
        instanceCount := r.instanceCount - 1,
        edges := if idx < r.edges.length then removeAt r.edges idx
                 else r.edges }).updateAllColors g) := by
  unfold Renderer.removeBox
  rw [hfind]
  simp only [hlast, if_neg, if_false]

theorem removeBox_found_spec (r : Renderer) (g : VoxelGrid) (gx gy gz : Int) (idx : Nat)
    (hlen : r.boxes.length = r.instanceCount)
    (hperm : (r.boxes.map BoxRecord.instanceIndex).Perm (List.range r.instanceCount))
    (hfind : findIndex (boxPred gx gy gz) r.boxes = some idx) :
    (r.removeBox g gx gy gz).1 = true ∧
    (r.removeBox g gx gy gz).2.instanceCount = r.instanceCount - 1 ∧
    (r.removeBox g gx gy gz).2.boxes.map BoxRecord.cell =
      removeAt (r.boxes.map BoxRecord.cell) idx ∧
    ((r.removeBox g gx gy gz).2.boxes.map BoxRecord.instanceIndex).Perm
      (List.range (r.instanceCount - 1)) := by
  have hidx : idx < r.boxes.length := findIndex_lt_length hfind
  have hn1 : 1 ≤ r.instanceCount := by omega
  have hlenL : (r.boxes.map BoxRecord.instanceIndex).length = r.boxes.length :=
    List.length_map _ _
  have hgetAtL : getAt (r.boxes.map BoxRecord.instanceIndex) idx 0 =
      (getAt r.boxes idx ⟨0, 0, 0, 0⟩).instanceIndex :=
    getAt_map BoxRecord.instanceIndex ⟨0, 0, 0, 0⟩ r.boxes idx
  have hrangeperm : (List.range r.instanceCount).Perm
      ((r.instanceCount - 1) :: List.range (r.instanceCount - 1)) := by
    have heq : r.instanceCount = (r.instanceCount - 1) + 1 := by omega
    rw [heq, List.range_succ]
    exact List.perm_append_singleton _ _
  by_cases hlast :
      (getAt r.boxes idx ⟨0, 0, 0, 0⟩).instanceIndex = r.instanceCount - 1
  · rw [removeBox_eq_of_found_last r g gx gy gz idx hfind hlast]
    refine ⟨rfl, rfl, ?_, ?_⟩
    · show (removeAt r.boxes idx).map BoxRecord.cell =
        removeAt (r.boxes.map BoxRecord.cell) idx
      exact map_removeAt _ _ _
    · show ((removeAt r.boxes idx).map BoxRecord.instanceIndex).Perm
        (List.range (r.instanceCount - 1))
      rw [map_removeAt]
      have p1 := perm_cons_removeAt 0 (r.boxes.map BoxRecord.instanceIndex) idx
        (by rw [hlenL]; exact hidx)
      rw [hgetAtL, hlast] at p1
      have p2 : ((r.instanceCount - 1) ::
          removeAt (r.boxes.map BoxRecord.instanceIndex) idx).Perm
          ((r.instanceCount - 1) :: List.range (r.instanceCount - 1)) :=
        (p1.symm.trans hperm).trans hrangeperm
      exact p2.cons_inv
  · rw [removeBox_eq_of_found_swap r g gx gy gz idx hfind hlast]
    refine ⟨rfl, rfl, ?_, ?_⟩
    · show ((removeAt (reindexLast r.boxes (r.instanceCount - 1)
          (getAt r.boxes idx ⟨0, 0, 0, 0⟩).instanceIndex) idx).map BoxRecord.cell) =
        removeAt (r.boxes.map BoxRecord.cell) idx
      rw [map_removeAt, reindexLast_map_cell]
    · show ((removeAt (reindexLast r.boxes (r.instanceCount - 1)
          (getAt r.boxes idx ⟨0, 0, 0, 0⟩).instanceIndex) idx).map
            BoxRecord.instanceIndex).Perm
        (List.range (r.instanceCount - 1))
      rw [map_removeAt, reindexLast_map_idx]
      have hlenM : (replaceFirst (r.boxes.map BoxRecord.instanceIndex)
          (r.instanceCount - 1)
          (getAt r.boxes idx ⟨0, 0, 0, 0⟩).instanceIndex).length =
          (r.boxes.map BoxRecord.instanceIndex).length :=
        replaceFirst_length _ _ _
      have hmemL : (r.instanceCount - 1) ∈ r.boxes.map BoxRecord.instanceIndex := by
        have hmr : (r.instanceCount - 1) ∈ List.range r.instanceCount := by
          simp only [List.mem_range]
          omega
        exact hperm.mem_iff.mpr hmr
      have hgetM : getAt (replaceFirst (r.boxes.map BoxRecord.instanceIndex)
          (r.instanceCount - 1)
          (getAt r.boxes idx ⟨0, 0, 0, 0⟩).instanceIndex) idx 0 =
          (getAt r.boxes idx ⟨0, 0, 0, 0⟩).instanceIndex :=
        getAt_replaceFirst_of_ne hgetAtL hlast
      have q1 := replaceFirst_perm
        (a := r.instanceCount - 1)
        ((getAt r.boxes idx ⟨0, 0, 0, 0⟩).instanceIndex) hmemL
      have q2 := perm_cons_removeAt 0
        (replaceFirst (r.boxes.map BoxRecord.instanceIndex) (r.instanceCount - 1)
          (getAt r.boxes idx ⟨0, 0, 0, 0⟩).instanceIndex) idx
        (by rw [hlenM, hlenL]; exact hidx)
      rw [hgetM] at q2
      have q3 := (q2.symm.trans q1).cons_inv
      have q4 := hperm.erase (r.instanceCount - 1)
      have q5 : ((List.range r.instanceCount).erase (r.instanceCount - 1)).Perm
          (List.range (r.instanceCount - 1)) := by
        have q6 := hrangeperm.erase (r.instanceCount - 1)
        rw [List.erase_cons_head] at q6
        exact q6
      exact (q3.trans q4).trans q5

/-! ## Preservation of the synchronization invariant -/

theorem trySpawnBox_eq_success (c : Controller) (gx gy gz : Int) (p : V3)
    (hpw : ¬ c.performanceWarning) (hcapfull : c.grid.occupied.length < c.grid.maxCells)
    (hmem : (⟨gx, gy, gz⟩ : Cell) ∉ c.grid.occupied) :
    c.trySpawnBox gx gy gz p =
      { c with
        grid := { c.grid with
          occupied := c.grid.occupied ++ [⟨gx, gy, gz⟩],
          minY := minStep c.grid.minY gy,
          maxY := maxStep c.grid.maxY gy },
        rend := c.rend.addBox
          { c.grid with
            occupied := c.grid.occupied ++ [⟨gx, gy, gz⟩],
            minY := minStep c.grid.minY gy,
            maxY := maxStep c.grid.maxY gy } gx gy gz,
        lastSpawnWorldPos := p } := by
  unfold Controller.trySpawnBox
  rw [if_neg hpw]
  show (if (c.grid.add gx gy gz).1 then _ else _) = _
  rw [VoxelGrid.add_success _ _ _ _ hcapfull hmem]
  rfl

theorem trySpawnBox_eq_fail (c : Controller) (gx gy gz : Int) (p : V3)
    (hpw : ¬ c.performanceWarning)
    (h : c.grid.maxCells ≤ c.grid.occupied.length ∨
      (⟨gx, gy, gz⟩ : Cell) ∈ c.grid.occupied) :
    c.trySpawnBox gx gy gz p = c := by
  unfold Controller.trySpawnBox
  rw [if_neg hpw]
  show (if (c.grid.add gx gy gz).1 then _ else _) = _
  rw [VoxelGrid.add_fail _ _ _ _ h]
  rfl

theorem tryEraseBox_eq_found (c : Controller) (gx gy gz : Int)
    (hmem : (⟨gx, gy, gz⟩ : Cell) ∈ c.grid.occupied) :
    c.tryEraseBox gx gy gz =
      { c with
        grid := { c.grid with
          occupied := c.grid.occupied.erase ⟨gx, gy, gz⟩,
          minY := recomputeMinY (c.grid.occupied.erase ⟨gx, gy, gz⟩),
          maxY := recomputeMaxY (c.grid.occupied.erase ⟨gx, gy, gz⟩) },
        rend := (c.rend.removeBox
          { c.grid with
            occupied := c.grid.occupied.erase ⟨gx, gy, gz⟩,
            minY := recomputeMinY (c.grid.occupied.erase ⟨gx, gy, gz⟩),
            maxY := recomputeMaxY (c.grid.occupied.erase ⟨gx, gy, gz⟩) }
          gx gy gz).2 } := by
  unfold Controller.tryEraseBox
  show (if (c.grid.remove gx gy gz).1 then _ else _) = _
  rw [VoxelGrid.remove_of_mem _ _ _ _ hmem]
  rfl

theorem tryEraseBox_eq_not_found (c : Controller) (gx gy gz : Int)
    (hmem : (⟨gx, gy, gz⟩ : Cell) ∉ c.grid.occupied) :
    c.tryEraseBox gx gy gz = c := by
  unfold Controller.tryEraseBox
  show (if (c.grid.remove gx gy gz).1 then _ else _) = _
  rw [VoxelGrid.remove_of_not_mem _ _ _ _ hmem]
  rfl

theorem SyncInv_trySpawnBox (c : Controller) (gx gy gz : Int) (p : V3)
    (h : SyncInv c) : SyncInv (c.trySpawnBox gx gy gz p) := by
  obtain ⟨hmax, hic, hcap, hnd, hcells, hidx⟩ := h
  by_cases hpw : c.performanceWarning
  · unfold Controller.trySpawnBox
    rw [if_pos hpw]
    exact ⟨hmax, hic, hcap, hnd, hcells, hidx⟩
  · by_cases hcapfull : c.grid.maxCells ≤ c.grid.occupied.length
    · rw [trySpawnBox_eq_fail c gx gy gz p hpw (Or.inl hcapfull)]
      exact ⟨hmax, hic, hcap, hnd, hcells, hidx⟩
    · by_cases hmem : (⟨gx, gy, gz⟩ : Cell) ∈ c.grid.occupied
      · rw [trySpawnBox_eq_fail c gx gy gz p hpw (Or.inr hmem)]
        exact ⟨hmax, hic, hcap, hnd, hcells, hidx⟩
      · rw [trySpawnBox_eq_success c gx gy gz p hpw (by omega) hmem]
        refine ⟨hmax, ?_, ?_, ?_, ?_, ?_⟩
        · show (Renderer.addBox _ _ gx gy gz).instanceCount =
            (c.grid.occupied ++ [(⟨gx, gy, gz⟩ : Cell)]).length
          rw [addBox_instanceCount]
          simp only [List.length_append, List.length_singleton]
          exact congrArg (· + 1) hic
        · show (c.grid.occupied ++ [(⟨gx, gy, gz⟩ : Cell)]).length ≤ c.grid.maxCells
          simp only [List.length_append, List.length_singleton]
          omega
        · show (c.grid.occupied ++ [(⟨gx, gy, gz⟩ : Cell)]).Nodup
          have hperm1 := List.perm_append_singleton (⟨gx, gy, gz⟩ : Cell) c.grid.occupied
          exact hperm1.symm.nodup (List.nodup_cons.mpr ⟨hmem, hnd⟩)
        · show ((Renderer.addBox _ _ gx gy gz).boxes.map BoxRecord.cell).Perm
            (c.grid.occupied ++ [(⟨gx, gy, gz⟩ : Cell)])
          rw [addBox_boxes, List.map_append]
          exact hcells.append (List.Perm.refl [(⟨gx, gy, gz⟩ : Cell)])
        · show ((Renderer.addBox _ _ gx gy gz).boxes.map BoxRecord.instanceIndex).Perm
            (List.range (Renderer.addBox _ _ gx gy gz).instanceCount)
          rw [addBox_boxes, addBox_instanceCount, List.map_append, List.range_succ]
          exact hidx.append (List.Perm.refl [c.rend.instanceCount])

theorem SyncInv_tryEraseBox (c : Controller) (gx gy gz : Int)
    (h : SyncInv c) : SyncInv (c.tryEraseBox gx gy gz) := by
  obtain ⟨hmax, hic, hcap, hnd, hcells, hidx⟩ := h
  by_cases hmem : (⟨gx, gy, gz⟩ : Cell) ∈ c.grid.occupied
  · rw [tryEraseBox_eq_found c gx gy gz hmem]
    have hlen : c.rend.boxes.length = c.rend.instanceCount := by
      have hl := hidx.length_eq
      simpa using hl
    have hmemcells : (⟨gx, gy, gz⟩ : Cell) ∈ c.rend.boxes.map BoxRecord.cell :=
      hcells.mem_iff.mpr hmem
    rcases List.mem_map.mp hmemcells with ⟨b, hb, hbcell⟩
    rcases findIndex_isSome_of_mem hb ((boxPred_iff gx gy gz b).mpr hbcell)
      with ⟨idx, hfind⟩
    obtain ⟨h1, h2, h3, h4⟩ := removeBox_found_spec c.rend _ gx gy gz idx hlen hidx hfind
    have hidxlt : idx < c.rend.boxes.length := findIndex_lt_length hfind
    have hgetcell : getAt (c.rend.boxes.map BoxRecord.cell) idx
        (BoxRecord.cell ⟨0, 0, 0, 0⟩) = (⟨gx, gy, gz⟩ : Cell) := by
      rw [getAt_map BoxRecord.cell ⟨0, 0, 0, 0⟩]
      exact (boxPred_iff gx gy gz _).mp (findIndex_getAt ⟨0, 0, 0, 0⟩ hfind)
    refine ⟨hmax, ?_, ?_, ?_, ?_, ?_⟩
    · show (Renderer.removeBox c.rend _ gx gy gz).2.instanceCount =
        (c.grid.occupied.erase ⟨gx, gy, gz⟩).length
      rw [h2, List.length_erase_of_mem hmem]
      unfold VoxelGrid.count at hic
      omega
    · show (c.grid.occupied.erase ⟨gx, gy, gz⟩).length ≤ c.grid.maxCells
      rw [List.length_erase_of_mem hmem]
      unfold VoxelGrid.count at hcap
      omega
    · exact hnd.erase _
    · show ((Renderer.removeBox c.rend _ gx gy gz).2.boxes.map BoxRecord.cell).Perm
        (c.grid.occupied.erase ⟨gx, gy, gz⟩)
      rw [h3]
      have p1 := perm_cons_removeAt (BoxRecord.cell ⟨0, 0, 0, 0⟩)
        (c.rend.boxes.map BoxRecord.cell) idx (by simpa using hidxlt)
      rw [hgetcell] at p1
      have p2 := List.perm_cons_erase hmem
      have p3 : ((⟨gx, gy, gz⟩ : Cell) ::
          removeAt (c.rend.boxes.map BoxRecord.cell) idx).Perm
          ((⟨gx, gy, gz⟩ : Cell) :: c.grid.occupied.erase ⟨gx, gy, gz⟩) :=
        (p1.symm.trans hcells).trans p2
      exact p3.cons_inv
    · show ((Renderer.removeBox c.rend _ gx gy gz).2.boxes.map
          BoxRecord.instanceIndex).Perm
        (List.range (Renderer.removeBox c.rend _ gx gy gz).2.instanceCount)
      rw [h2]
      exact h4
  · rw [tryEraseBox_eq_not_found c gx gy gz hmem]
    exact ⟨hmax, hic, hcap, hnd, hcells, hidx⟩

theorem VoxelGrid.runOps_maxCells (ops : List GridOp) :
    ∀ (g : VoxelGrid), (g.runOps ops).maxCells = g.maxCells := by
  induction ops with
  | nil => intro g; rfl
  | cons op rest ih =>
    intro g
    show ((g.applyOp op).runOps rest).maxCells = g.maxCells
    rw [ih (g.applyOp op), VoxelGrid.applyOp_maxCells]

theorem Controller.trySpawnBox_config (c : Controller) (gx gy gz : Int) (p : V3) :
    (c.trySpawnBox gx gy gz p).config = c.config := by
  unfold Controller.trySpawnBox
  by_cases hpw : c.performanceWarning
  · rw [if_pos hpw]
  · rw [if_neg hpw]
    show (if (c.grid.add gx gy gz).1 then (_ : Controller) else (_ : Controller)).config = c.config
    split_ifs <;> rfl

theorem Controller.tryEraseBox_config (c : Controller) (gx gy gz : Int) :
    (c.tryEraseBox gx gy gz).config = c.config := by
  unfold Controller.tryEraseBox
  show (if (c.grid.remove gx gy gz).1 then (_ : Controller) else (_ : Controller)).config = c.config
  split_ifs <;> rfl

theorem Controller.runOps_config (ops : List BuildOp) :
    ∀ (c : Controller), (c.runOps ops).config = c.config := by
  induction ops with
  | nil => intro c; rfl
  | cons op rest ih =>
    intro c
    show ((c.applyOp op).runOps rest).config = c.config
    rw [ih (c.applyOp op)]
    cases op with
    | spawn gx gy gz pos => exact Controller.trySpawnBox_config c gx gy gz pos
    | erase gx gy gz => exact Controller.tryEraseBox_config c gx gy gz

/-! ## The claims -/

/-- C1: after every sequence of gesture-driven add/remove operations
routed through the controller (`trySpawnBox` / `tryEraseBox`), the
occupancy store and the render buffer are in bijection — every occupied
grid cell has exactly one box record at some instance index in
`[0, instanceCount)`, `instanceCount` equals the store count, and
`instanceCount` never exceeds the fixed capacity `maxBoxes`. -/
theorem controller_store_buffer_bijection (cfg : VoxelConfig) (maxTilt : ℚ)
    (ops : List BuildOp) :
    SyncInv ((Controller.mk0 cfg maxTilt).runOps ops) ∧
    ((Controller.mk0 cfg maxTilt).runOps ops).rend.instanceCount ≤ cfg.maxBoxes := by
  have hinit : SyncInv (Controller.mk0 cfg maxTilt) := by
    refine ⟨rfl, rfl, Nat.zero_le _, List.nodup_nil, List.Perm.refl _, List.Perm.refl _⟩
  have hrun : ∀ (c : Controller), SyncInv c → SyncInv (c.runOps ops) := by
    induction ops with
    | nil => intro c hc; exact hc
    | cons op rest ih =>
      intro c hc
      show SyncInv ((c.applyOp op).runOps rest)
      cases op with
      | spawn gx gy gz pos => exact ih _ (SyncInv_trySpawnBox c gx gy gz pos hc)
      | erase gx gy gz => exact ih _ (SyncInv_tryEraseBox c gx gy gz hc)
  have hfinal := hrun _ hinit
  refine ⟨hfinal, ?_⟩
  obtain ⟨hmax, hic, hcap, -, -, -⟩ := hfinal
  have hcfg := Controller.runOps_config ops (Controller.mk0 cfg maxTilt)
  rw [hcfg] at hmax
  have hmk : (Controller.mk0 cfg maxTilt).config.maxBoxes = cfg.maxBoxes := rfl
  rw [hmk] at hmax
  omega

/-- C2: `removeBox` returns false when the cell has no record.
Otherwise, when the removed record is not the last live one, the
transform of the currently last slot is copied into the removed slot,
the moved record is rebooked, `instanceCount` is decremented and the
live range `[0, instanceCount)` stays dense (the copied color at the
swap step is immediately refreshed by the recolor pass, see the recolor
theorem).  Concretely, after adding cells A=(0,0,0), B=(1,0,0),
C=(2,0,0) at instance indices 0, 1, 2 and removing B: the record of C
sits at index 1 with the C transform in slot 1, `instanceCount` is 2,
and the record of A is unchanged at index 0. -/
theorem removeBox_swap_and_pop :
    (∀ (r : Renderer) (g : VoxelGrid) (gx gy gz : Int),
      (∀ b ∈ r.boxes, boxPred gx gy gz b = false) →
      r.removeBox g gx gy gz = (false, r)) ∧
    (∀ (r : Renderer) (g : VoxelGrid) (gx gy gz : Int) (idx : Nat),
      r.boxes.length = r.instanceCount →
      (r.boxes.map BoxRecord.instanceIndex).Perm (List.range r.instanceCount) →
      findIndex (boxPred gx gy gz) r.boxes = some idx →
      (getAt r.boxes idx ⟨0, 0, 0, 0⟩).instanceIndex ≠ r.instanceCount - 1 →
      (r.removeBox g gx gy gz).1 = true ∧
      (r.removeBox g gx gy gz).2.instanceCount = r.instanceCount - 1 ∧
      (r.removeBox g gx gy gz).2.mats
          (getAt r.boxes idx ⟨0, 0, 0, 0⟩).instanceIndex =
        r.mats (r.instanceCount - 1) ∧
      ((r.removeBox g gx gy gz).2.boxes.map BoxRecord.instanceIndex).Perm
        (List.range (r.instanceCount - 1))) ∧
    (scenarioD.rend.instanceCount = 2 ∧
     scenarioD.grid.count = 2 ∧
     scenarioD.rend.boxes = [⟨0, 0, 0, 0⟩, ⟨2, 0, 0, 1⟩] ∧
     scenarioD.rend.mats 1 = ⟨9/10, 0, 0⟩ ∧
     scenarioD.rend.mats 0 = ⟨0, 0, 0⟩) := by
  refine ⟨?_, ?_, ?_⟩
  · intro r g gx gy gz hall
    exact removeBox_not_found r g gx gy gz ((findIndex_none_iff _ _).mpr hall)
  · intro r g gx gy gz idx hlen hperm hfind hne
    obtain ⟨h1, h2, h3, h4⟩ := removeBox_found_spec r g gx gy gz idx hlen hperm hfind
    refine ⟨h1, h2, ?_, h4⟩
    rw [removeBox_eq_of_found_swap r g gx gy gz idx hfind hne]
    simp only [updateAllColors_mats]
    simp
  · refine ⟨by decide, by decide, by decide, ?_, ?_⟩
    · norm_num [scenarioD, scenarioDPre, Controller.runOps, Controller.applyOp,
        Controller.trySpawnBox, Controller.tryEraseBox, Renderer.addBox,
        Renderer.removeBox, VoxelGrid.add, VoxelGrid.remove, VoxelGrid.gridToWorld,
        Controller.mk0, Renderer.mk0, VoxelGrid.mk0, DEFAULT_VOXEL_BUILDER_CONFIG,
        Renderer.updateAllColors, findIndex, removeAt, reindexLast, getAt, boxPred,
        VoxelGrid.count, List.erase, VoxelGrid.getYRange]
    · norm_num [scenarioD, scenarioDPre, Controller.runOps, Controller.applyOp,
        Controller.trySpawnBox, Controller.tryEraseBox, Renderer.addBox,
        Renderer.removeBox, VoxelGrid.add, VoxelGrid.remove, VoxelGrid.gridToWorld,
        Controller.mk0, Renderer.mk0, VoxelGrid.mk0, DEFAULT_VOXEL_BUILDER_CONFIG,
        Renderer.updateAllColors, findIndex, removeAt, reindexLast, getAt, boxPred,
        VoxelGrid.count, List.erase, VoxelGrid.getYRange]

/-- Witness for C2: on a renderer with no records the removal of
(5,5,5) reports false and leaves the state unchanged, and removing
B=(1,0,0) (instance index 1 of 3, not the last record) from the
scenario-D precondition state decrements the live count to 2. -/
theorem removeBox_swap_and_pop_witness :
    (Renderer.mk0 1).removeBox gradGrid 5 5 5 = (false, Renderer.mk0 1) ∧
    (scenarioDPre.rend.removeBox scenarioDPre.grid 1 0 0).2.instanceCount = 2 :=
  ⟨removeBox_swap_and_pop.1 (Renderer.mk0 1) gradGrid 5 5 5
      (by intro b hb; simp [Renderer.mk0] at hb),
   (removeBox_swap_and_pop.2.1 scenarioDPre.rend scenarioDPre.grid 1 0 0 1
      (by decide) (by decide) (by decide) (by decide)).2.1⟩

/-- C3: for every sequence of operations on a fresh occupancy store,
`count ≤ maxCells`; `add` returns false with no state change when the
store is at capacity or the cell is already occupied, and otherwise
inserts the cell, updates `minY` / `maxY`, and returns true; once at
capacity, every `add` keeps returning false (with the state unchanged)
until a `remove` succeeds, after which an `add` of a free cell succeeds
again. -/
theorem voxelGrid_capacity_guard :
    (∀ (cs : ℚ) (mc : Nat) (ops : List GridOp), (runFresh cs mc ops).count ≤ mc) ∧
    (∀ (g : VoxelGrid) (gx gy gz : Int),
      g.maxCells ≤ g.count ∨ (⟨gx, gy, gz⟩ : Cell) ∈ g.occupied →
      g.add gx gy gz = (false, g)) ∧
    (∀ (g : VoxelGrid) (gx gy gz : Int),
      g.count < g.maxCells → (⟨gx, gy, gz⟩ : Cell) ∉ g.occupied →
      (g.add gx gy gz).1 = true ∧
      (g.add gx gy gz).2.occupied = g.occupied ++ [⟨gx, gy, gz⟩] ∧
      (g.add gx gy gz).2.minY = minStep g.minY gy ∧
      (g.add gx gy gz).2.maxY = maxStep g.maxY gy) ∧
    (∀ (g : VoxelGrid) (ax ay az dx dy dz : Int),
      g.count ≤ g.maxCells →
      (g.remove ax ay az).1 = true →
      (⟨dx, dy, dz⟩ : Cell) ∉ (g.remove ax ay az).2.occupied →
      ((g.remove ax ay az).2.add dx dy dz).1 = true) := by
  refine ⟨?_, ?_, ?_, ?_⟩
  · intro cs mc ops
    have h1 := VoxelGrid.runOps_count_le ops (VoxelGrid.mk0 cs mc) (Nat.zero_le mc)
    have h2 := VoxelGrid.runOps_maxCells ops (VoxelGrid.mk0 cs mc)
    unfold runFresh
    rw [h2] at h1
    exact h1
  · intro g gx gy gz h
    exact VoxelGrid.add_fail g gx gy gz h
  · intro g gx gy gz hcap hmem
    rw [VoxelGrid.add_success g gx gy gz hcap hmem]
    exact ⟨rfl, rfl, rfl, rfl⟩
  · intro g ax ay az dx dy dz hcap hrem hmem
    by_cases hmemA : (⟨ax, ay, az⟩ : Cell) ∈ g.occupied
    · rw [VoxelGrid.remove_of_mem g ax ay az hmemA] at hmem ⊢
      have hlen : (g.occupied.erase ⟨ax, ay, az⟩).length = g.occupied.length - 1 :=
        List.length_erase_of_mem hmemA
      have hpos : 1 ≤ g.occupied.length := List.length_pos.mpr
        (List.ne_nil_of_mem hmemA)
      unfold VoxelGrid.count at hcap
      rw [VoxelGrid.add_success _ dx dy dz (by simp only [hlen]; omega) hmem]
    · rw [VoxelGrid.remove_of_not_mem g ax ay az hmemA] at hrem
      exact absurd hrem (by simp)

/-- Witness for C3: on a one-cell store filled with (0,0,0), adding
(1,0,0) fails and leaves the store unchanged; after removing (0,0,0) the
same add succeeds. -/
theorem voxelGrid_capacity_guard_witness :
    (runFresh 1 1 [.add 0 0 0]).add 1 0 0 = (false, runFresh 1 1 [.add 0 0 0]) ∧
    (((runFresh 1 1 [.add 0 0 0]).remove 0 0 0).2.add 1 0 0).1 = true :=
  ⟨voxelGrid_capacity_guard.2.1 (runFresh 1 1 [.add 0 0 0]) 1 0 0
      (Or.inl (by decide)),
   voxelGrid_capacity_guard.2.2.2 (runFresh 1 1 [.add 0 0 0]) 0 0 0 1 0 0
      (by decide) (by decide) (by decide)⟩

/-- C4: after every sequence of add/remove/clear on a fresh occupancy
store, `getYRange` returns exactly the true minimum and maximum of the
occupied `gy` values, or the sentinel `(0, 0)` when the store is empty;
concretely (`cellSize = 0.45`, `maxCells = 1000`), adding (0,0,0) gives
`count = 1` and `minY = maxY = 0`, then adding (0,1,0) gives
`count = 2`, `minY = 0`, `maxY = 1`, then removing (0,0,0) gives
`count = 1` and `minY = maxY = 1`. -/
theorem voxelGrid_extent_correct :
    (∀ (cs : ℚ) (mc : Nat) (ops : List GridOp),
      ((runFresh cs mc ops).occupied = [] →
        (runFresh cs mc ops).getYRange = (0, 0)) ∧
      ((runFresh cs mc ops).occupied ≠ [] →
        (∃ c ∈ (runFresh cs mc ops).occupied,
          c.gy = (runFresh cs mc ops).getYRange.1) ∧
        (∀ c ∈ (runFresh cs mc ops).occupied,
          (runFresh cs mc ops).getYRange.1 ≤ c.gy) ∧
        (∃ c ∈ (runFresh cs mc ops).occupied,
          c.gy = (runFresh cs mc ops).getYRange.2) ∧
        (∀ c ∈ (runFresh cs mc ops).occupied,
          c.gy ≤ (runFresh cs mc ops).getYRange.2))) ∧
    ((runFresh (9/20) 1000 [.add 0 0 0]).count = 1 ∧
     (runFresh (9/20) 1000 [.add 0 0 0]).getYRange = (0, 0) ∧
     (runFresh (9/20) 1000 [.add 0 0 0, .add 0 1 0]).count = 2 ∧
     (runFresh (9/20) 1000 [.add 0 0 0, .add 0 1 0]).getYRange = (0, 1) ∧
     (runFresh (9/20) 1000 [.add 0 0 0, .add 0 1 0, .remove 0 0 0]).count = 1 ∧
     (runFresh (9/20) 1000 [.add 0 0 0, .add 0 1 0, .remove 0 0 0]).getYRange
       = (1, 1)) := by
  constructor
  · intro cs mc ops
    have hok : extentOK (runFresh cs mc ops) := extentOK_runOps ops _ ⟨rfl, rfl⟩
    constructor
    · intro hemp
      unfold VoxelGrid.getYRange
      rw [hemp]
      rfl
    · intro hne
      cases hocc : (runFresh cs mc ops).occupied with
      | nil => exact absurd hocc hne
      | cons c t =>
        obtain ⟨hminEq, hmaxEq⟩ := hok
        rw [hocc] at hminEq hmaxEq
        obtain ⟨m1, hm1, hm1mem, hm1le⟩ := recomputeMinY_spec c t
        obtain ⟨m2, hm2, hm2mem, hm2le⟩ := recomputeMaxY_spec c t
        have hrange : (runFresh cs mc ops).getYRange = (m1, m2) := by
          unfold VoxelGrid.getYRange
          rw [hocc, hminEq, hm1, hmaxEq, hm2]
          rfl
        simp only [hrange, hocc]
        exact ⟨hm1mem, hm1le, hm2mem, hm2le⟩
  · refine ⟨by decide, by decide, by decide, by decide, by decide, by decide⟩

/-- Witness for C4: on the store holding exactly the cell (0,5,0), the
reported minimum height is at most 5. -/
theorem voxelGrid_extent_correct_witness :
    (runFresh 1 10 [.add 0 5 0]).getYRange.1 ≤ (5 : Int) :=
  ((voxelGrid_extent_correct.1 1 10 [.add 0 5 0]).2 (by decide)).2.1
    ⟨0, 5, 0⟩ (by decide)

/-- Counterexample to C5 as stated: in a state where the warning is set,
one cell is occupied and the FPS has recovered to 60 (threshold 30), the
per-second performance update keeps the warning set, and placement is
still blocked — the claimed lifting on FPS recovery does not happen. -/
theorem performance_block_persists_after_recovery :
    warnedBuilt.grid.count = 1 ∧
    warnedBuilt.currentFps = 60 ∧
    warnedBuilt.config.fpsWarningThreshold = 30 ∧
    warnedBuilt.performanceWarning = true ∧
    (warnedBuilt.updatePerformanceWarning).performanceWarning = true ∧
    (warnedBuilt.updatePerformanceWarning).trySpawnBox 1 0 0 ⟨9/20, 0, 0⟩ =
      warnedBuilt.updatePerformanceWarning := by
  refine ⟨by decide, by decide, by decide, by decide, by decide, rfl⟩

/-- C5 (amended): while the performance warning is set, placement is
fully blocked (the controller state is returned unchanged), while
erasure and rotation are unaffected by the flag; the warning — and with
it the placement block — is cleared by `reset`, and persists through the
per-second performance update even after the FPS recovers (recovery only
resets the low-FPS accumulator). -/
theorem performance_warning_blocks_placement_only :
    (∀ (c : Controller) (gx gy gz : Int) (p : V3),
      c.performanceWarning = true → c.trySpawnBox gx gy gz p = c) ∧
    (∀ (c : Controller) (b : Bool) (gx gy gz : Int),
      ({ c with performanceWarning := b }).tryEraseBox gx gy gz =
        { c.tryEraseBox gx gy gz with performanceWarning := b }) ∧
    (∀ (c : Controller) (b : Bool) (s : GState) (np : ℚ × ℚ),
      ({ c with performanceWarning := b }).handleLeftPinch s np =
        { c.handleLeftPinch s np with performanceWarning := b }) ∧
    (∀ (c : Controller), (c.reset).performanceWarning = false) ∧
    (∀ (c : Controller), c.performanceWarning = true →
      (c.updatePerformanceWarning).performanceWarning = true) := by
  refine ⟨?_, ?_, ?_, ?_, ?_⟩
  · intro c gx gy gz p h
    unfold Controller.trySpawnBox
    rw [if_pos h]
  · intro c b gx gy gz
    by_cases hmem : (⟨gx, gy, gz⟩ : Cell) ∈ c.grid.occupied
    · rw [tryEraseBox_eq_found { c with performanceWarning := b } gx gy gz hmem,
        tryEraseBox_eq_found c gx gy gz hmem]
    · rw [tryEraseBox_eq_not_found { c with performanceWarning := b } gx gy gz hmem,
        tryEraseBox_eq_not_found c gx gy gz hmem]
  · intro c b s np
    cases s with
    | started => rfl
    | active =>
      by_cases hrot : c.isRotating
      · simp [Controller.handleLeftPinch, hrot]
      · simp [Controller.handleLeftPinch, hrot]
    | ended => rfl
  · intro c
    rfl
  · intro c h
    unfold Controller.updatePerformanceWarning
    split_ifs <;> simp [h]

/-- Witness for C5 (amended): on the concrete warned state, placement of
(1,2,3) is a no-op, and the warning survives the per-second update. -/
theorem performance_warning_blocks_placement_only_witness :
    warnedBuilt.trySpawnBox 1 2 3 ⟨0, 0, 0⟩ = warnedBuilt ∧
    (warnedBuilt.updatePerformanceWarning).performanceWarning = true :=
  ⟨performance_warning_blocks_placement_only.1 warnedBuilt 1 2 3 ⟨0, 0, 0⟩ rfl,
   performance_warning_blocks_placement_only.2.2.2.2 warnedBuilt rfl⟩

/-- Counterexample to C6 as stated: in a state that is rotating with
erase mode held, processing a frame with zero hands leaves both
`isRotating` and `eraseMode` set — only the drawing stroke is ended that
frame. -/
theorem no_hands_keeps_rotation_and_erase :
    rotatingErasing.isRotating = true ∧
    rotatingErasing.eraseMode = true ∧
    (rotatingErasing.processHands id none).isRotating = true ∧
    (rotatingErasing.processHands id none).eraseMode = true :=
  ⟨rfl, rfl, rfl, rfl⟩

/-- C6 (amended): on a frame where the tracker reports zero hands (or a
null result), `processHands` records a hand count of zero and ends only
the drawing stroke — `isDrawing` is false by the end of the call, while
`isRotating` and `eraseMode` keep their previous values (those roles are
implicitly ended only on a later frame that has hands but no
corresponding events). -/
theorem no_hands_clears_drawing_only :
    (∀ (c : Controller) (invRot : V3 → V3),
      (c.processHands invRot none).isDrawing = false ∧
      (c.processHands invRot none).isRotating = c.isRotating ∧
      (c.processHands invRot none).eraseMode = c.eraseMode ∧
      (c.processHands invRot none).lastHandCount = 0) ∧
    (∀ (c : Controller) (invRot : V3 → V3) (f : HandFrame), f.numHands = 0 →
      (c.processHands invRot (some f)).isDrawing = false ∧
      (c.processHands invRot (some f)).isRotating = c.isRotating ∧
      (c.processHands invRot (some f)).eraseMode = c.eraseMode ∧
      (c.processHands invRot (some f)).lastHandCount = 0) := by
  constructor
  · intro c invRot
    by_cases hd : c.isDrawing
    · simp [Controller.processHands, Controller.endDrawing, hd]
    · simp [Controller.processHands, Controller.endDrawing, hd]
  · intro c invRot f hf
    by_cases hd : c.isDrawing
    · simp [Controller.processHands, Controller.endDrawing, hf, hd]
    · simp [Controller.processHands, Controller.endDrawing, hf, hd]

/-- Witness for C6 (amended): a fresh controller fed a zero-hand frame
reports zero hands afterwards. -/
theorem no_hands_clears_drawing_only_witness :
    ((Controller.mk0 DEFAULT_VOXEL_BUILDER_CONFIG 1).processHands id
      (some emptyFrame)).lastHandCount = 0 :=
  (no_hands_clears_drawing_only.2 (Controller.mk0 DEFAULT_VOXEL_BUILDER_CONFIG 1)
    id emptyFrame rfl).2.2.2

theorem gstate_active_ne_started : GState.active ≠ GState.started :=
  fun h => GState.noConfusion h

/-- C7: the depth estimator emits `z = 0` at gesture START, capturing
the just-smoothed hand scale as the reference, and while ACTIVE with a
positive reference emits
`z = ((smoothedScale - referenceScale) / referenceScale) * 12`;
concretely, at START with raw scale 1/5 the smoothed scale and reference
are 1/5 and `z = 0`, and on the next ACTIVE frame with raw scale 1/3 the
smoothed scale is `0.3 * (1/3) + 0.7 * (1/5) = 6/25 = 0.24`, the
normalized delta is 1/5, and `z = 12/5 = 2.4`. -/
theorem depth_estimator_spec :
    (∀ (c : Controller) (pos : V3) (raw : ℚ), 0 < raw →
      (c.computeDepthCorrectedPosition pos (some raw) .started).2.z = 0 ∧
      (c.computeDepthCorrectedPosition pos (some raw) .started).1.referenceHandScale =
        (c.computeDepthCorrectedPosition pos (some raw) .started).1.smoothedHandScale) ∧
    (∀ (c : Controller) (pos : V3) (raw : ℚ), 0 < raw → 0 < c.referenceHandScale →
      (c.computeDepthCorrectedPosition pos (some raw) .active).2.z =
        ((c.computeDepthCorrectedPosition pos (some raw) .active).1.smoothedHandScale -
          c.referenceHandScale) / c.referenceHandScale * DEPTH_SCALE_SENSITIVITY ∧
      (c.computeDepthCorrectedPosition pos (some raw) .active).1.referenceHandScale =
        c.referenceHandScale) ∧
    (((Controller.mk0 DEFAULT_VOXEL_BUILDER_CONFIG 1).computeDepthCorrectedPosition
        ⟨0, 0, 0⟩ (some (1/5)) .started).2.z = 0 ∧
     ((Controller.mk0 DEFAULT_VOXEL_BUILDER_CONFIG 1).computeDepthCorrectedPosition
        ⟨0, 0, 0⟩ (some (1/5)) .started).1 = depthAnchored ∧
     (depthAnchored.computeDepthCorrectedPosition
        ⟨0, 0, 0⟩ (some (1/3)) .active).1.smoothedHandScale = 6/25 ∧
     (depthAnchored.computeDepthCorrectedPosition
        ⟨0, 0, 0⟩ (some (1/3)) .active).2.z = 12/5) := by
  refine ⟨?_, ?_, ?_, ?_, ?_, ?_⟩
  · intro c pos raw hraw
    simp only [Controller.computeDepthCorrectedPosition]
    rw [if_neg (not_le.mpr hraw)]
    simp
  · intro c pos raw hraw href
    simp only [Controller.computeDepthCorrectedPosition]
    rw [if_neg (not_le.mpr hraw)]
    by_cases hz : c.smoothedHandScale = 0
    · simp [hz, href, DEPTH_SCALE_SENSITIVITY]
    · simp [hz, href, DEPTH_SCALE_SENSITIVITY]
  · norm_num [Controller.computeDepthCorrectedPosition, Controller.mk0,
      DEFAULT_VOXEL_BUILDER_CONFIG, DEPTH_SMOOTHING_FACTOR, DEPTH_SCALE_SENSITIVITY]
  · norm_num [Controller.computeDepthCorrectedPosition, Controller.mk0, depthAnchored,
      DEFAULT_VOXEL_BUILDER_CONFIG, DEPTH_SMOOTHING_FACTOR, DEPTH_SCALE_SENSITIVITY]
  · norm_num [Controller.computeDepthCorrectedPosition, depthAnchored, Controller.mk0,
      DEFAULT_VOXEL_BUILDER_CONFIG, DEPTH_SMOOTHING_FACTOR, DEPTH_SCALE_SENSITIVITY,
      gstate_active_ne_started]
  · norm_num [Controller.computeDepthCorrectedPosition, depthAnchored, Controller.mk0,
      DEFAULT_VOXEL_BUILDER_CONFIG, DEPTH_SMOOTHING_FACTOR, DEPTH_SCALE_SENSITIVITY,
      gstate_active_ne_started]

/-- Witness for C7: the ACTIVE-state depth formula applied at the
anchored state with raw scale 1/3. -/
theorem depth_estimator_spec_witness :
    (depthAnchored.computeDepthCorrectedPosition ⟨0, 0, 0⟩ (some (1/3)) .active).2.z =
      ((depthAnchored.computeDepthCorrectedPosition ⟨0, 0, 0⟩
          (some (1/3)) .active).1.smoothedHandScale -
        depthAnchored.referenceHandScale) / depthAnchored.referenceHandScale *
        DEPTH_SCALE_SENSITIVITY :=
  (depth_estimator_spec.2.1 depthAnchored ⟨0, 0, 0⟩ (1/3) (by norm_num)
    (by norm_num [depthAnchored, Controller.mk0])).1

theorem round_min_dist (q : ℚ) (k : ℤ) : |q - (round q : ℚ)| ≤ |q - (k : ℚ)| := by
  rcases eq_or_ne k (round q) with rfl | hk
  · exact le_refl _
  · have hz : round q - k ≠ 0 := sub_ne_zero.mpr (Ne.symm hk)
    have hone : (1 : ℤ) ≤ |round q - k| := Int.one_le_abs hz
    have h1 : (1 : ℚ) ≤ |(round q : ℚ) - (k : ℚ)| := by
      have hcast : ((|round q - k| : ℤ) : ℚ) = |(round q : ℚ) - (k : ℚ)| := by
        push_cast
        rfl
      rw [← hcast]
      exact_mod_cast hone
    have h2 : |q - (round q : ℚ)| ≤ 1/2 := abs_sub_round q
    have h3 : |(round q : ℚ) - (k : ℚ)| ≤ |(round q : ℚ) - q| + |q - (k : ℚ)| :=
      abs_sub_le _ _ _
    have h4 : |(round q : ℚ) - q| = |q - (round q : ℚ)| := abs_sub_comm _ _
    linarith

theorem round_nearest_mult (s x : ℚ) (hs : 0 < s) (k : ℤ) :
    |x - (round (x / s) : ℚ) * s| ≤ |x - (k : ℚ) * s| := by
  have hsne : s ≠ 0 := ne_of_gt hs
  have key : ∀ (m : ℤ), x - (m : ℚ) * s = (x / s - (m : ℚ)) * s := by
    intro m
    rw [sub_mul, div_mul_cancel₀ _ hsne]
  rw [key (round (x / s)), key k, abs_mul, abs_mul, abs_of_pos hs]
  exact mul_le_mul_of_nonneg_right (round_min_dist (x / s) k) (le_of_lt hs)

theorem round_grid_roundtrip (s : ℚ) (hs : s ≠ 0) (n : ℤ) :
    round (((n : ℚ) * s) / s) = n := by
  rw [mul_div_assoc, div_self hs, mul_one, round_intCast]

/-- C8: the grid coordinate conversions round-trip.  For every
continuous local position `p`, `gridToWorld (worldToGrid p)` is the
center of the cell nearest to `p` — each component equals `cellSize`
times the rounded quotient, and is at least as close to the component of
`p` as any other cell center — and for every integer cell `c`,
`worldToGrid (gridToWorld c) = c`. -/
theorem coordinate_roundtrip :
    (∀ (g : VoxelGrid) (p : V3), 0 < g.cellSize →
      g.gridToWorld (g.worldToGrid p) =
        ⟨g.cellSize * (round (p.x / g.cellSize) : ℚ),
         g.cellSize * (round (p.y / g.cellSize) : ℚ),
         g.cellSize * (round (p.z / g.cellSize) : ℚ)⟩ ∧
      (∀ k : ℤ,
        |p.x - (g.gridToWorld (g.worldToGrid p)).x| ≤ |p.x - (k : ℚ) * g.cellSize| ∧
        |p.y - (g.gridToWorld (g.worldToGrid p)).y| ≤ |p.y - (k : ℚ) * g.cellSize| ∧
        |p.z - (g.gridToWorld (g.worldToGrid p)).z| ≤ |p.z - (k : ℚ) * g.cellSize|)) ∧
    (∀ (g : VoxelGrid) (c : Cell), 0 < g.cellSize →
      g.worldToGrid (g.gridToWorld c) = c) := by
  constructor
  · intro g p hcs
    constructor
    · simp [VoxelGrid.gridToWorld, VoxelGrid.worldToGrid, mul_comm]
    · intro k
      refine ⟨?_, ?_, ?_⟩
      · exact round_nearest_mult g.cellSize p.x hcs k
      · exact round_nearest_mult g.cellSize p.y hcs k
      · exact round_nearest_mult g.cellSize p.z hcs k
  · intro g c hcs
    cases c with
    | mk gx gy gz =>
      simp [VoxelGrid.worldToGrid, VoxelGrid.gridToWorld,
        round_grid_roundtrip g.cellSize (ne_of_gt hcs)]

/-- Witness for C8: round-trip of the cell (1,2,3) at cell size 9/20,
and the snapped center of `x = 1/2` is at least as close as the center
of cell index 2. -/
theorem coordinate_roundtrip_witness :
    gradGrid.worldToGrid (gradGrid.gridToWorld ⟨1, 2, 3⟩) = ⟨1, 2, 3⟩ ∧
    |(1/2 : ℚ) - (gradGrid.gridToWorld (gradGrid.worldToGrid ⟨1/2, 0, 0⟩)).x| ≤
      |(1/2 : ℚ) - ((2 : ℤ) : ℚ) * gradGrid.cellSize| :=
  ⟨coordinate_roundtrip.2 gradGrid ⟨1, 2, 3⟩ (by norm_num [gradGrid]),
   ((coordinate_roundtrip.1 gradGrid ⟨1/2, 0, 0⟩ (by norm_num [gradGrid])).2 2).1⟩

theorem colorFold_not_mem (pal : Palette) (mn range : Int) :
    ∀ (l : List BoxRecord) (f : Nat → ℚ × ℚ × ℚ) (i : Nat),
      i ∉ l.map BoxRecord.instanceIndex →
      l.foldl (colorStep pal mn range) f i = f i := by
  intro l
  induction l with
  | nil => intro f i _; rfl
  | cons b t ih =>
    intro f i hi
    simp only [List.map_cons, List.mem_cons] at hi
    push_neg at hi
    show t.foldl (colorStep pal mn range) (colorStep pal mn range f b) i = f i
    rw [ih _ i hi.2]
    simp [colorStep, hi.1]

theorem colorFold_mem (pal : Palette) (mn range : Int) :
    ∀ (l : List BoxRecord) (f : Nat → ℚ × ℚ × ℚ) (b : BoxRecord),
      b ∈ l → (l.map BoxRecord.instanceIndex).Nodup →
      l.foldl (colorStep pal mn range) f b.instanceIndex =
        lerpHSL pal (colorT mn range b.gy) := by
  intro l
  induction l with
  | nil => intro f b hb _; simp at hb
  | cons x t ih =>
    intro f b hb hnd
    simp only [List.map_cons, List.nodup_cons] at hnd
    rcases List.mem_cons.mp hb with rfl | hbt
    · show t.foldl (colorStep pal mn range) (colorStep pal mn range f b)
        b.instanceIndex = lerpHSL pal (colorT mn range b.gy)
      rw [colorFold_not_mem pal mn range t _ _ hnd.1]
      simp [colorStep]
    · show t.foldl (colorStep pal mn range) (colorStep pal mn range f x)
        b.instanceIndex = lerpHSL pal (colorT mn range b.gy)
      exact ih _ b hbt hnd.2

/-- C9: the recolor pass assigns every live record the HSL color that
interpolates hue, saturation and lightness between the bottom and top
endpoints of the active palette at
`t = (gy - minY) / (maxY - minY)`, with `t = 1/2` whenever the vertical
extent is degenerate (`maxY - minY = 0`), so it never divides by the
extent in that case. -/
theorem recolor_gradient :
    ∀ (r : Renderer) (g : VoxelGrid),
      (r.boxes.map BoxRecord.instanceIndex).Nodup →
      ∀ b ∈ r.boxes,
        (r.updateAllColors g).cols b.instanceIndex =
          lerpHSL r.palette
            (if g.getYRange.2 - g.getYRange.1 = 0 then 1/2
             else ((b.gy : ℚ) - (g.getYRange.1 : ℚ)) /
               ((g.getYRange.2 - g.getYRange.1 : Int) : ℚ)) := by
  intro r g hnd b hb
  show r.boxes.foldl
      (colorStep r.palette g.getYRange.1 (g.getYRange.2 - g.getYRange.1))
      r.cols b.instanceIndex = _
  rw [colorFold_mem _ _ _ r.boxes r.cols b hb hnd]
  simp [colorT]

/-- Witness for C9: in the two-record state over heights 0 and 3, the
record at height 3 (instance slot 1) receives the palette color at the
top of the gradient. -/
theorem recolor_gradient_witness :
    (gradRend.updateAllColors gradGrid).cols 1 =
      lerpHSL gradRend.palette
        (if gradGrid.getYRange.2 - gradGrid.getYRange.1 = 0 then 1/2
         else (((3 : Int) : ℚ) - (gradGrid.getYRange.1 : ℚ)) /
           ((gradGrid.getYRange.2 - gradGrid.getYRange.1 : Int) : ℚ)) :=
  recolor_gradient gradRend gradGrid (by decide) ⟨0, 3, 0, 1⟩ (by decide)

theorem tryEraseBox_lastSpawn (c : Controller) (gx gy gz : Int) :
    (c.tryEraseBox gx gy gz).lastSpawnWorldPos = c.lastSpawnWorldPos := by
  by_cases hmem : (⟨gx, gy, gz⟩ : Cell) ∈ c.grid.occupied
  · rw [tryEraseBox_eq_found c gx gy gz hmem]
  · rw [tryEraseBox_eq_not_found c gx gy gz hmem]

theorem tryEraseBox_grid_eq (c d : Controller) (gx gy gz : Int)
    (h : c.grid = d.grid) :
    (c.tryEraseBox gx gy gz).grid = (d.tryEraseBox gx gy gz).grid := by
  by_cases hmem : (⟨gx, gy, gz⟩ : Cell) ∈ c.grid.occupied
  · have hmemd : (⟨gx, gy, gz⟩ : Cell) ∈ d.grid.occupied := h ▸ hmem
    rw [tryEraseBox_eq_found c gx gy gz hmem,
      tryEraseBox_eq_found d gx gy gz hmemd]
    show ({ c.grid with
      occupied := c.grid.occupied.erase ⟨gx, gy, gz⟩,
      minY := recomputeMinY (c.grid.occupied.erase ⟨gx, gy, gz⟩),
      maxY := recomputeMaxY (c.grid.occupied.erase ⟨gx, gy, gz⟩) } : VoxelGrid) = _
    rw [h]
  · have hmemd : (⟨gx, gy, gz⟩ : Cell) ∉ d.grid.occupied := h ▸ hmem
    rw [tryEraseBox_eq_not_found c gx gy gz hmem,
      tryEraseBox_eq_not_found d gx gy gz hmemd]
    exact h

/-- C10: the last-spawn reference position of the minimum-spacing gate
is updated only by a successful placement, never by an erase:
`tryEraseBox` leaves `lastSpawnWorldPos` unchanged, a blocked or failed
`trySpawnBox` leaves it unchanged, a successful one records its
position; and during an ACTIVE right-pinch step in erase mode the
position is untouched while the distance check compares the current
build-local position against `lastSpawnWorldPos` — the most recent
successful placement, possibly from an earlier stroke. -/
theorem lastSpawn_updated_only_by_placement :
    (∀ (c : Controller) (gx gy gz : Int),
      (c.tryEraseBox gx gy gz).lastSpawnWorldPos = c.lastSpawnWorldPos) ∧
    (∀ (c : Controller) (gx gy gz : Int) (p : V3),
      c.performanceWarning = true ∨ (c.grid.add gx gy gz).1 = false →
      (c.trySpawnBox gx gy gz p).lastSpawnWorldPos = c.lastSpawnWorldPos) ∧
    (∀ (c : Controller) (gx gy gz : Int) (p : V3),
      c.performanceWarning = false → (c.grid.add gx gy gz).1 = true →
      (c.trySpawnBox gx gy gz p).lastSpawnWorldPos = p) ∧
    (∀ (c : Controller) (invRot : V3 → V3) (wp : V3), c.eraseMode = true →
      (c.handleRightPinch invRot .started wp).lastSpawnWorldPos =
        c.lastSpawnWorldPos ∧
      (c.handleRightPinch invRot .active wp).lastSpawnWorldPos =
        c.lastSpawnWorldPos ∧
      (c.handleRightPinch invRot .active wp).grid =
        (if c.config.spawnDistance ^ 2 ≤ V3.distSq (invRot wp) c.lastSpawnWorldPos
         then (c.tryEraseBox (c.grid.worldToGrid (invRot wp)).gx
                (c.grid.worldToGrid (invRot wp)).gy
                (c.grid.worldToGrid (invRot wp)).gz).grid
         else c.grid)) := by
  refine ⟨tryEraseBox_lastSpawn, ?_, ?_, ?_⟩
  · intro c gx gy gz p h
    rcases h with hpw | hadd
    · unfold Controller.trySpawnBox
      rw [if_pos hpw]
    · unfold Controller.trySpawnBox
      by_cases hpw : c.performanceWarning
      · rw [if_pos hpw]
      · rw [if_neg hpw]
        show (if (c.grid.add gx gy gz).1 then (_ : Controller)
          else (_ : Controller)).lastSpawnWorldPos = c.lastSpawnWorldPos
        rw [hadd]
        rfl
  · intro c gx gy gz p hpw hadd
    unfold Controller.trySpawnBox
    rw [if_neg (by simp [hpw])]
    show (if (c.grid.add gx gy gz).1 then (_ : Controller)
      else (_ : Controller)).lastSpawnWorldPos = p
    rw [hadd]
    rfl
  · intro c invRot wp hmode
    refine ⟨?_, ?_, ?_⟩
    · simp [Controller.handleRightPinch, hmode, tryEraseBox_lastSpawn]
    · by_cases hgate : c.config.spawnDistance ^ 2 ≤
        V3.distSq (invRot wp) c.lastSpawnWorldPos
      · simp [Controller.handleRightPinch, hmode, hgate, tryEraseBox_lastSpawn]
      · simp [Controller.handleRightPinch, hmode, hgate]
    · by_cases hgate : c.config.spawnDistance ^ 2 ≤
        V3.distSq (invRot wp) c.lastSpawnWorldPos
      · simp only [Controller.handleRightPinch, hmode, hgate, if_true, if_pos]
        exact tryEraseBox_grid_eq _ c _ _ _ rfl
      · simp [Controller.handleRightPinch, hmode, hgate]

/-- Witness for C10: in the erase-mode state, both a direct erase and an
ACTIVE erase-mode pinch step leave the last-spawn reference unchanged. -/
theorem lastSpawn_updated_only_by_placement_witness :
    (eraseHeld.tryEraseBox 0 0 0).lastSpawnWorldPos =
      eraseHeld.lastSpawnWorldPos ∧
    (eraseHeld.handleRightPinch id .active ⟨1, 1, 1⟩).lastSpawnWorldPos =
      eraseHeld.lastSpawnWorldPos :=
  ⟨lastSpawn_updated_only_by_placement.1 eraseHeld 0 0 0,
   (lastSpawn_updated_only_by_placement.2.2.2 eraseHeld id ⟨1, 1, 1⟩ rfl).2.1⟩
